import Mathlib

/-!
Verification of the VoiceNotebook Analytics & Gamification Engine.

This file gives a shallow embedding of the analytics core of the
VoiceNotebook-QA repository (Collector, Calculator, Aggregator,
Gamification Engine) and proves properties of it.  JavaScript numbers
are modelled as rationals; JavaScript Dates are modelled either as
integer day indices (for daily rows) or integer millisecond timestamps
(for events), as noted on each definition.
-/

namespace VoiceNotebook

/-- JS Math.round for non-special values: floor of x + 1/2
(rounds halves toward positive infinity, as in JavaScript). -/
def jsRound (q : ℚ) : ℤ := ⌊q + 1/2⌋

/-- One per-date usage row (interface DailyUsageData).  The date is an
integer day index (the JS code normalises Dates to local midnight and
divides differences by 86400000 ms, which yields exactly this day
arithmetic).  All numeric fields are JS numbers, modelled as ℚ. -/
structure DailyUsage where
  date : ℤ
  recordingMinutes : ℚ
  documentsProcessed : ℚ
  searchCount : ℚ
  timeSpent : ℚ
  sessionsCount : ℚ
  itemsCreated : ℚ
  itemsDeleted : ℚ
  productivityScore : ℚ
  deriving DecidableEq, Repr

/-- The per-day score body shared verbatim by
AnalyticsCalculationService.calculateProductivityScore and
AnalyticsCollectionService.calculateQuickProductivityScore:
min(itemsCreated*10,40) + min(searchCount*2,20) + min((timeSpent/60)*10,20)
+ (itemsCreated>0 ? 20 : 0). -/
def dayScore (day : DailyUsage) : ℚ :=
  min (day.itemsCreated * 10) 40 + min (day.searchCount * 2) 20 +
    min (day.timeSpent / 60 * 10) 20 +
    (if 0 < day.itemsCreated then (20 : ℚ) else 0)

/-- JS dailyUsage.slice(-7): the last seven entries (all of them when
there are fewer). -/
def lastSeven (l : List DailyUsage) : List DailyUsage :=
  l.drop (l.length - 7)

/-- AnalyticsCalculationService.calculateProductivityScore: 0 on an empty
list, otherwise the for-loop accumulates each recent day's score capped
at 100 and the function returns Math.round(totalScore / recentDays.length).
The unused contentItems parameter of the source is omitted. -/
def calculateProductivityScore (dailyUsage : List DailyUsage) : ℚ :=
  if dailyUsage = [] then 0
  else
    let recentDays := lastSeven dailyUsage
    let totalScore := recentDays.foldl (fun acc day => acc + min (dayScore day) 100) 0
    ((jsRound (totalScore / (recentDays.length : ℚ)) : ℤ) : ℚ)

/-- Written from the spec claim's words, for comparison with the source:
the arithmetic mean of the capped per-day scores over the last 7 days
(no rounding). -/
def specMeanCappedScore (dailyUsage : List DailyUsage) : ℚ :=
  ((lastSeven dailyUsage).map (fun day => min (dayScore day) 100)).sum /
    ((lastSeven dailyUsage).length : ℚ)

/-- Written from the amended claim's words: Math.round of the arithmetic
mean of the capped per-day scores, 0 for no data. -/
def specRoundedMeanScore (dailyUsage : List DailyUsage) : ℚ :=
  if dailyUsage = [] then 0
  else ((jsRound (specMeanCappedScore dailyUsage) : ℤ) : ℚ)

theorem foldl_add_map_sum (f : DailyUsage → ℚ) (l : List DailyUsage) :
    ∀ a : ℚ, l.foldl (fun acc day => acc + f day) a = a + (l.map f).sum := by
  induction l with
  | nil => intro a; simp
  | cons x xs ih =>
      intro a
      simp only [List.foldl_cons, List.map_cons, List.sum_cons, ih]
      ring

/-- A usage row with all counters zero except the given timeSpent. -/
def timeOnlyRow (t : ℚ) : DailyUsage :=
  ⟨0, 0, 0, 0, t, 0, 0, 0, 0⟩

/-- A usage row with itemsCreated 5, searchCount 10, timeSpent 120. -/
def busyRow : DailyUsage :=
  ⟨0, 0, 0, 10, 120, 0, 5, 0, 0⟩

/-- C6 counterexample: the claim says the result is the arithmetic mean of
the capped day scores, but on a single day with timeSpent = 3 the mean is
1/2 while the code returns Math.round(1/2) = 1. -/
theorem productivityScore_not_raw_mean :
    calculateProductivityScore [timeOnlyRow 3] = 1 ∧
      specMeanCappedScore [timeOnlyRow 3] = 1/2 ∧ (1 : ℚ) ≠ 1/2 := by
  refine ⟨?_, ?_, by norm_num⟩
  · norm_num [calculateProductivityScore, lastSeven, dayScore, timeOnlyRow, jsRound, min_def]
  · norm_num [specMeanCappedScore, lastSeven, dayScore, timeOnlyRow, min_def]

/-- C6 (amended): calculateProductivityScore is 0 on the empty list and
otherwise Math.round (half-up) of the arithmetic mean of the per-day
capped scores over the last (at most) seven days; a week of days each
with itemsCreated = 5, searchCount = 10, timeSpent = 120 scores 100. -/
theorem calculateProductivityScore_spec :
    (∀ l : List DailyUsage, calculateProductivityScore l = specRoundedMeanScore l) ∧
      calculateProductivityScore [] = 0 ∧
      calculateProductivityScore (List.replicate 7 busyRow) = 100 := by
  refine ⟨?_, by norm_num [calculateProductivityScore], ?_⟩
  · intro l
    by_cases h : l = []
    · subst h
      norm_num [calculateProductivityScore, specRoundedMeanScore]
    · simp only [calculateProductivityScore, specRoundedMeanScore, specMeanCappedScore, h,
        if_false]
      rw [foldl_add_map_sum]
      norm_num
  · norm_num [calculateProductivityScore, lastSeven, dayScore, busyRow, jsRound, min_def,
      List.replicate]
    exact List.cons_ne_nil _ _

/-! Event model (types/analytics.ts): the closed EventType enum, the
event payload fields the analytics core reads, and the event record.
Timestamps are split into the hour-of-day (Date.getHours) and the
millisecond epoch value (Date.getTime), the only two projections the
embedded code uses. -/

inductive EventType where
  | voice_recording_started
  | voice_recording_completed
  | voice_recording_failed
  | file_upload_started
  | file_upload_completed
  | file_upload_failed
  | search_performed
  | search_result_clicked
  | item_deleted
  | item_viewed
  | session_started
  | session_ended
  | goal_created
  | goal_completed
  | achievement_unlocked
  | feature_used
  | error_occurred
  deriving DecidableEq, Repr

/-- The optional EventData fields read by the embedded analytics code
(duration, resultsCount, success); absent fields are none. -/
structure EventData where
  duration : Option ℚ := none
  resultsCount : Option ℚ := none
  success : Option Bool := none
  deriving DecidableEq, Repr

/-- An AnalyticsEvent, with the timestamp projections used by the code:
hour = timestamp.getHours(), timeMs = timestamp.getTime().  sessionId is
an abstract identifier. -/
structure AnalyticsEvent where
  etype : EventType
  hour : ℕ := 0
  timeMs : ℤ := 0
  sessionId : ℕ := 0
  data : EventData := {}
  deriving DecidableEq, Repr

/-- AnalyticsStorageService.updateRealTimeMetrics: the per-event switch
applied to today's DailyUsageData row inside trackEvent.  Note that the
voice_recording_completed arm adds the raw event.data.duration || 0 to
recordingMinutes and that no arm touches timeSpent or
productivityScore. -/
def updateRealTimeMetrics (event : AnalyticsEvent) (todayUsage : DailyUsage) : DailyUsage :=
  match event.etype with
  | .voice_recording_completed =>
      { todayUsage with
        recordingMinutes := todayUsage.recordingMinutes + event.data.duration.getD 0,
        itemsCreated := todayUsage.itemsCreated + 1 }
  | .file_upload_completed =>
      { todayUsage with
        documentsProcessed := todayUsage.documentsProcessed + 1,
        itemsCreated := todayUsage.itemsCreated + 1 }
  | .search_performed =>
      { todayUsage with searchCount := todayUsage.searchCount + 1 }
  | .item_deleted =>
      { todayUsage with itemsDeleted := todayUsage.itemsDeleted + 1 }
  | _ => todayUsage

/-- AnalyticsStorageService.createEmptyDailyUsage for a given date. -/
def createEmptyDailyUsage (date : ℤ) : DailyUsage :=
  ⟨date, 0, 0, 0, 0, 1, 0, 0, 0⟩

/-- AnalyticsCollectionService.calculateQuickProductivityScore:
the quick formula, Math.min(Math.round(score), 100). -/
def calculateQuickProductivityScore (d : DailyUsage) : ℚ :=
  ((min (jsRound (dayScore d)) 100 : ℤ) : ℚ)

/-- The activityType union of
AnalyticsCollectionService.updateProductivityMetrics. -/
inductive ActivityType where
  | voice_recording
  | file_upload
  deriving DecidableEq, Repr

/-- AnalyticsCollectionService.updateProductivityMetrics: the update it
applies to today's usage row found in the snapshot (duration is in
seconds; duration / 60 converts to minutes), followed by the quick
productivity-score recomputation. -/
def updateProductivityMetrics (activityType : ActivityType) (duration : ℚ)
    (todayUsage : DailyUsage) : DailyUsage :=
  let r1 :=
    match activityType with
    | .voice_recording =>
        { todayUsage with
          recordingMinutes := todayUsage.recordingMinutes + duration / 60,
          itemsCreated := todayUsage.itemsCreated + 1 }
    | .file_upload =>
        { todayUsage with
          documentsProcessed := todayUsage.documentsProcessed + 1,
          itemsCreated := todayUsage.itemsCreated + 1 }
  let r2 := { r1 with timeSpent := r1.timeSpent + duration / 60 }
  { r2 with productivityScore := calculateQuickProductivityScore r2 }

/-- Written from the claim's words, for comparison with the source: the
claimed per-event real-time update (duration/60 into recordingMinutes,
duration/60 (or 0) into timeSpent for every matched event, and the quick
score recomputed). -/
def specRealTimeUpdate (event : AnalyticsEvent) (todayUsage : DailyUsage) : DailyUsage :=
  let matched := event.etype = EventType.voice_recording_completed ∨
    event.etype = EventType.file_upload_completed ∨
    event.etype = EventType.search_performed ∨
    event.etype = EventType.item_deleted
  if matched then
    let r1 :=
      match event.etype with
      | .voice_recording_completed =>
          { todayUsage with
            recordingMinutes := todayUsage.recordingMinutes + event.data.duration.getD 0 / 60,
            itemsCreated := todayUsage.itemsCreated + 1 }
      | .file_upload_completed =>
          { todayUsage with
            documentsProcessed := todayUsage.documentsProcessed + 1,
            itemsCreated := todayUsage.itemsCreated + 1 }
      | .search_performed =>
          { todayUsage with searchCount := todayUsage.searchCount + 1 }
      | .item_deleted =>
          { todayUsage with itemsDeleted := todayUsage.itemsDeleted + 1 }
      | _ => todayUsage
    let r2 := { r1 with timeSpent := r1.timeSpent + event.data.duration.getD 0 / 60 }
    { r2 with productivityScore := calculateQuickProductivityScore r2 }
  else todayUsage

/-- A one-minute voice_recording_completed event (duration 60 seconds). -/
def voiceEvent60 : AnalyticsEvent :=
  { etype := .voice_recording_completed, data := { duration := some 60 } }

/-- C2 counterexample: for a voice_recording_completed event with
duration 60 applied to an empty daily row, the store-level real-time
update adds the raw 60 to recordingMinutes (the claim says 60/60 = 1)
and leaves timeSpent and productivityScore untouched (the claim says
timeSpent gains 1 and the quick score is recomputed). -/
theorem updateRealTimeMetrics_not_spec :
    (updateRealTimeMetrics voiceEvent60 (createEmptyDailyUsage 0)).recordingMinutes = 60 ∧
      (specRealTimeUpdate voiceEvent60 (createEmptyDailyUsage 0)).recordingMinutes = 1 ∧
      (updateRealTimeMetrics voiceEvent60 (createEmptyDailyUsage 0)).timeSpent = 0 ∧
      (specRealTimeUpdate voiceEvent60 (createEmptyDailyUsage 0)).timeSpent = 1 ∧
      updateRealTimeMetrics voiceEvent60 (createEmptyDailyUsage 0) ≠
        specRealTimeUpdate voiceEvent60 (createEmptyDailyUsage 0) := by
  have hsrc : (updateRealTimeMetrics voiceEvent60 (createEmptyDailyUsage 0)).recordingMinutes =
      60 := by
    norm_num [updateRealTimeMetrics, voiceEvent60, createEmptyDailyUsage]
  have hts : (updateRealTimeMetrics voiceEvent60 (createEmptyDailyUsage 0)).timeSpent = 0 := by
    norm_num [updateRealTimeMetrics, voiceEvent60, createEmptyDailyUsage]
  refine ⟨hsrc, by norm_num [specRealTimeUpdate, voiceEvent60, createEmptyDailyUsage], hts,
    by norm_num [specRealTimeUpdate, voiceEvent60, createEmptyDailyUsage], ?_⟩
  intro h
  have h60 : (updateRealTimeMetrics voiceEvent60 (createEmptyDailyUsage 0)).recordingMinutes =
      (specRealTimeUpdate voiceEvent60 (createEmptyDailyUsage 0)).recordingMinutes := by rw [h]
  rw [hsrc] at h60
  norm_num [specRealTimeUpdate, voiceEvent60, createEmptyDailyUsage] at h60

/-- C2 (amended): the store-level per-event update (updateRealTimeMetrics)
adds the raw duration (default 0) to recordingMinutes for
voice_recording_completed, increments the counters exactly as listed for
the four matched types, and never changes timeSpent or productivityScore;
the duration/60 conversion, the timeSpent accrual and the quick-score
recomputation happen only in the Collector's updateProductivityMetrics,
which handles voice_recording and file_upload activity. -/
theorem realTimeUpdate_characterization :
    (∀ (e : AnalyticsEvent) (row : DailyUsage),
        (updateRealTimeMetrics e row).timeSpent = row.timeSpent ∧
        (updateRealTimeMetrics e row).productivityScore = row.productivityScore ∧
        (e.etype = EventType.voice_recording_completed →
          updateRealTimeMetrics e row =
            { row with recordingMinutes := row.recordingMinutes + e.data.duration.getD 0,
                       itemsCreated := row.itemsCreated + 1 }) ∧
        (e.etype = EventType.file_upload_completed →
          updateRealTimeMetrics e row =
            { row with documentsProcessed := row.documentsProcessed + 1,
                       itemsCreated := row.itemsCreated + 1 }) ∧
        (e.etype = EventType.search_performed →
          updateRealTimeMetrics e row =
            { row with searchCount := row.searchCount + 1 }) ∧
        (e.etype = EventType.item_deleted →
          updateRealTimeMetrics e row =
            { row with itemsDeleted := row.itemsDeleted + 1 })) ∧
    (∀ (a : ActivityType) (duration : ℚ) (row : DailyUsage),
        (updateProductivityMetrics a duration row).timeSpent = row.timeSpent + duration / 60 ∧
        (updateProductivityMetrics a duration row).productivityScore =
          calculateQuickProductivityScore
            { updateProductivityMetrics a duration row with
                productivityScore := row.productivityScore } ∧
        (a = ActivityType.voice_recording →
          (updateProductivityMetrics a duration row).recordingMinutes =
              row.recordingMinutes + duration / 60 ∧
            (updateProductivityMetrics a duration row).itemsCreated = row.itemsCreated + 1) ∧
        (a = ActivityType.file_upload →
          (updateProductivityMetrics a duration row).documentsProcessed =
              row.documentsProcessed + 1 ∧
            (updateProductivityMetrics a duration row).itemsCreated = row.itemsCreated + 1)) := by
  constructor
  · intro e row
    refine ⟨?_, ?_, ?_, ?_, ?_, ?_⟩ <;>
      cases h : e.etype <;>
        simp_all [updateRealTimeMetrics]
  · intro a duration row
    refine ⟨?_, ?_, ?_, ?_⟩ <;>
      cases h : a <;>
        simp_all [updateProductivityMetrics, calculateQuickProductivityScore]

/-- C2 amended-claim witness: the characterization evaluated on the
concrete one-minute voice recording event and an empty row. -/
theorem realTimeUpdate_characterization_witness :
    updateRealTimeMetrics voiceEvent60 (createEmptyDailyUsage 0) =
      { createEmptyDailyUsage 0 with recordingMinutes := 0 + 60, itemsCreated := 0 + 1 } :=
  ((realTimeUpdate_characterization.1 voiceEvent60 (createEmptyDailyUsage 0)).2.2.1 rfl).trans
    (by norm_num [createEmptyDailyUsage, voiceEvent60])

/-! Collector buffering (AnalyticsCollectionService).  Buffered events are
identified by the order in which they were tracked: the i-th track call
buffers event id i.  The store list records each delivery made through
analyticsService.trackEvent, in delivery order (an event id can appear
more than once after a failed-then-retried batch).  raised records
whether a flush failure was ever raised to the caller; the catch block
in flushActivityBuffer swallows the error, so nothing ever sets it. -/

structure CollectorState where
  buffer : List ℕ
  store : List ℕ
  nextId : ℕ
  raised : Bool
  deriving DecidableEq, Repr

/-- The initial collector state: empty buffer, empty store. -/
def initCollector : CollectorState := ⟨[], [], 0, false⟩

/-- AnalyticsCollectionService.flushActivityBuffer.  fail = some i means
the (i+1)-th analyticsService.trackEvent call of the batch throws (so the
first i events were already delivered); fail = none (or an index past the
batch) means the whole batch is delivered.  arriving lists events that
are pushed onto the fresh buffer while the flush awaits; on failure the
catch handler re-adds the entire failed batch with unshift, i.e. in
front of them.  The caller never sees an error: raised stays false. -/
def flushActivityBuffer (fail : Option ℕ) (arriving : List ℕ)
    (s : CollectorState) : CollectorState :=
  if s.buffer = [] then s
  else
    let eventsToFlush := s.buffer
    match fail with
    | none => { s with buffer := arriving, store := s.store ++ eventsToFlush }
    | some i =>
        if i < eventsToFlush.length then
          { s with buffer := eventsToFlush ++ arriving,
                   store := s.store ++ eventsToFlush.take i }
        else { s with buffer := arriving, store := s.store ++ eventsToFlush }

/-- AnalyticsCollectionService.bufferEvent: push the event, then flush
immediately if the buffer has reached 10 entries.  fail injects a
failure into that synchronous flush. -/
def bufferEvent (fail : Option ℕ) (s : CollectorState) : CollectorState :=
  let s1 : CollectorState :=
    { s with buffer := s.buffer ++ [s.nextId], nextId := s.nextId + 1 }
  if 10 ≤ s1.buffer.length then flushActivityBuffer fail [] s1 else s1

/-- One collector action: a track call (any of the track* entry points,
which all buffer one event), or a 30-second flush-timer tick.  Each
carries the injected failure for the flush it may perform. -/
inductive CollectorOp where
  | track (fail : Option ℕ)
  | tick (fail : Option ℕ)
  deriving DecidableEq, Repr

/-- Run one collector action. -/
def runCollectorOp (s : CollectorState) : CollectorOp → CollectorState
  | .track fail => bufferEvent fail s
  | .tick fail => flushActivityBuffer fail [] s

/-- Run a sequence of collector actions from a state. -/
def runCollector (ops : List CollectorOp) (s : CollectorState) : CollectorState :=
  ops.foldl runCollectorOp s

/-- The number of track calls in an action sequence. -/
def trackCount (ops : List CollectorOp) : ℕ :=
  (ops.filter (fun op => match op with | .track _ => true | .tick _ => false)).length

/-- The conservation invariant: an id has been tracked iff it is in the
store or still in the buffer, and no failure was raised. -/
def CollectorInv (s : CollectorState) : Prop :=
  (∀ id : ℕ, id < s.nextId ↔ (id ∈ s.store ∨ id ∈ s.buffer)) ∧ s.raised = false

theorem collectorInv_init : CollectorInv initCollector := by
  constructor
  · intro id
    simp [initCollector]
  · rfl

theorem collectorInv_flush (fail : Option ℕ) (s : CollectorState)
    (h : CollectorInv s) : CollectorInv (flushActivityBuffer fail [] s) := by
  obtain ⟨hmem, hraised⟩ := h
  unfold flushActivityBuffer
  by_cases hb : s.buffer = []
  · simpa [hb] using ⟨hmem, hraised⟩
  · simp only [hb, if_false]
    match fail with
    | none =>
        refine ⟨fun id => ?_, hraised⟩
        rw [hmem id]
        simp [List.mem_append]
    | some i =>
        by_cases hi : i < s.buffer.length
        · simp only [hi, if_true, List.append_nil]
          refine ⟨fun id => ?_, hraised⟩
          rw [hmem id]
          constructor
          · intro hid
            rcases hid with hid | hid
            · exact Or.inl (List.mem_append_left _ hid)
            · exact Or.inr hid
          · intro hid
            rcases hid with hid | hid
            · rcases List.mem_append.mp hid with hid | hid
              · exact Or.inl hid
              · exact Or.inr (List.mem_of_mem_take hid)
            · exact Or.inr hid
        · simp only [hi, if_false]
          refine ⟨fun id => ?_, hraised⟩
          rw [hmem id]
          simp [List.mem_append]

theorem collectorInv_buffer (fail : Option ℕ) (s : CollectorState)
    (h : CollectorInv s) : CollectorInv (bufferEvent fail s) := by
  obtain ⟨hmem, hraised⟩ := h
  have h1 : CollectorInv
      { s with buffer := s.buffer ++ [s.nextId], nextId := s.nextId + 1 } := by
    refine ⟨fun id => ?_, hraised⟩
    simp only [List.mem_append, List.mem_singleton]
    constructor
    · intro hid
      rcases Nat.lt_succ_iff_lt_or_eq.mp hid with hid | hid
      · rcases (hmem id).mp hid with hid | hid
        · exact Or.inl hid
        · exact Or.inr (Or.inl hid)
      · exact Or.inr (Or.inr hid)
    · intro hid
      rcases hid with hid | hid | hid
      · exact Nat.lt_succ_of_lt ((hmem id).mpr (Or.inl hid))
      · exact Nat.lt_succ_of_lt ((hmem id).mpr (Or.inr hid))
      · exact hid ▸ Nat.lt_succ_self _
  unfold bufferEvent
  by_cases hlen : 10 ≤ s.buffer.length + 1
  · simpa [hlen] using collectorInv_flush fail _ h1
  · simpa [hlen] using h1

theorem collectorInv_run (ops : List CollectorOp) :
    ∀ s : CollectorState, CollectorInv s → CollectorInv (runCollector ops s) := by
  induction ops with
  | nil => intro s h; exact h
  | cons op rest ih =>
      intro s h
      have hstep : CollectorInv (runCollectorOp s op) := by
        cases op with
        | track fail => exact collectorInv_buffer fail s h
        | tick fail => exact collectorInv_flush fail s h
      simpa [runCollector, List.foldl_cons] using ih (runCollectorOp s op) hstep

theorem nextId_flush (fail : Option ℕ) (arriving : List ℕ) (s : CollectorState) :
    (flushActivityBuffer fail arriving s).nextId = s.nextId := by
  unfold flushActivityBuffer
  by_cases hb : s.buffer = []
  · simp [hb]
  · match fail with
    | none => simp [hb]
    | some i =>
        by_cases hi : i < s.buffer.length <;> simp [hb, hi]

theorem nextId_buffer (fail : Option ℕ) (s : CollectorState) :
    (bufferEvent fail s).nextId = s.nextId + 1 := by
  show (if 10 ≤ (s.buffer ++ [s.nextId]).length then
      flushActivityBuffer fail []
        { s with buffer := s.buffer ++ [s.nextId], nextId := s.nextId + 1 }
    else
      { s with buffer := s.buffer ++ [s.nextId], nextId := s.nextId + 1 }).nextId =
    s.nextId + 1
  by_cases hlen : 10 ≤ (s.buffer ++ [s.nextId]).length
  · rw [if_pos hlen, nextId_flush]
  · rw [if_neg hlen]

theorem nextId_run (ops : List CollectorOp) :
    ∀ s : CollectorState, (runCollector ops s).nextId = s.nextId + trackCount ops := by
  induction ops with
  | nil => intro s; simp [runCollector, trackCount]
  | cons op rest ih =>
      intro s
      have hrun : runCollector (op :: rest) s = runCollector rest (runCollectorOp s op) := rfl
      rw [hrun, ih (runCollectorOp s op)]
      cases op with
      | track fail =>
          have h1 : trackCount (CollectorOp.track fail :: rest) = trackCount rest + 1 := by
            simp [trackCount, List.filter_cons]
          simp only [runCollectorOp, nextId_buffer, h1]
          omega
      | tick fail =>
          have h1 : trackCount (CollectorOp.tick fail :: rest) = trackCount rest := by
            simp [trackCount, List.filter_cons]
          simp only [runCollectorOp, nextId_flush, h1]

theorem range'_concat_eq (s n : ℕ) :
    List.range' s (n + 1) = List.range' s n ++ [s + n] := by
  have h : List.range' s (n + 1) 1 = List.range' s n 1 ++ [s + 1 * n] :=
    List.range'_concat s n
  simpa using h

theorem flush_empty_eq (fail : Option ℕ) (arriving : List ℕ) (s : CollectorState)
    (hb : s.buffer = []) : flushActivityBuffer fail arriving s = s := by
  simp [flushActivityBuffer, hb]

theorem flush_success_eq (arriving : List ℕ) (s : CollectorState) (hb : s.buffer ≠ []) :
    flushActivityBuffer none arriving s =
      ⟨arriving, s.store ++ s.buffer, s.nextId, s.raised⟩ := by
  simp [flushActivityBuffer, hb]

theorem flush_fail_eq (i : ℕ) (arriving : List ℕ) (s : CollectorState) (hb : s.buffer ≠ [])
    (hi : i < s.buffer.length) :
    flushActivityBuffer (some i) arriving s =
      ⟨s.buffer ++ arriving, s.store ++ s.buffer.take i, s.nextId, s.raised⟩ := by
  simp [flushActivityBuffer, hb, hi]

theorem bufferEvent_eq (fail : Option ℕ) (s : CollectorState) :
    bufferEvent fail s =
      (if 10 ≤ s.buffer.length + 1 then
        flushActivityBuffer fail [] ⟨s.buffer ++ [s.nextId], s.store, s.nextId + 1, s.raised⟩
      else ⟨s.buffer ++ [s.nextId], s.store, s.nextId + 1, s.raised⟩) := by
  simp [bufferEvent]

theorem range'_glue (s m n : ℕ) :
    List.range' s m ++ List.range' (s + m) n = List.range' s (m + n) := by
  have h := List.range'_append s m n 1
  simp only [Nat.one_mul] at h
  rw [h, Nat.add_comm n m]

/-- C1: at-least-once delivery of buffered events under injected flush
failures.  For every action sequence: no flush failure is ever raised to
the caller; an event id was tracked iff it is currently in the store
(already delivered at least once) or in the live buffer (no silent
loss); once a final successful flush happens, the buffer is empty and
the store has delivered exactly the tracked events — distinct delivered
ids number exactly the track calls; and a failed flush prepends (never
appends) the entire failed batch, in its original order, onto the live
buffer in front of any newly arrived events. -/
theorem collector_at_least_once (ops : List CollectorOp) :
    (runCollector ops initCollector).raised = false ∧
    (∀ id : ℕ, id < trackCount ops ↔
      (id ∈ (runCollector ops initCollector).store ∨
        id ∈ (runCollector ops initCollector).buffer)) ∧
    (runCollector (ops ++ [CollectorOp.tick none]) initCollector).buffer = [] ∧
    (∀ id : ℕ, id ∈ (runCollector (ops ++ [CollectorOp.tick none]) initCollector).store ↔
      id < trackCount ops) ∧
    (runCollector (ops ++ [CollectorOp.tick none]) initCollector).store.dedup.length =
      trackCount ops ∧
    (∀ (i : ℕ) (arriving : List ℕ) (s : CollectorState),
      s.buffer ≠ [] → i < s.buffer.length →
        flushActivityBuffer (some i) arriving s =
          ⟨s.buffer ++ arriving, s.store ++ s.buffer.take i, s.nextId, s.raised⟩) := by
  have hinv : CollectorInv (runCollector ops initCollector) :=
    collectorInv_run ops initCollector collectorInv_init
  have hnext : (runCollector ops initCollector).nextId = trackCount ops := by
    simpa [initCollector] using nextId_run ops initCollector
  have hmem : ∀ id : ℕ, id < trackCount ops ↔
      (id ∈ (runCollector ops initCollector).store ∨
        id ∈ (runCollector ops initCollector).buffer) := by
    intro id
    rw [← hnext]
    exact hinv.1 id
  have hfinal : runCollector (ops ++ [CollectorOp.tick none]) initCollector =
      flushActivityBuffer none [] (runCollector ops initCollector) := by
    simp [runCollector, List.foldl_append, runCollectorOp]
  have hstoreiff : ∀ id : ℕ,
      id ∈ (runCollector (ops ++ [CollectorOp.tick none]) initCollector).store ↔
        id < trackCount ops := by
    intro id
    rw [hfinal]
    by_cases hb : (runCollector ops initCollector).buffer = []
    · rw [flush_empty_eq none [] _ hb]
      rw [hmem id]
      simp [hb]
    · rw [flush_success_eq [] _ hb]
      rw [hmem id]
      simp [List.mem_append]
  refine ⟨hinv.2, hmem, ?_, hstoreiff, ?_, ?_⟩
  · rw [hfinal]
    by_cases hb : (runCollector ops initCollector).buffer = []
    · rw [flush_empty_eq none [] _ hb]
      exact hb
    · rw [flush_success_eq [] _ hb]
  · have hfs : (runCollector (ops ++ [CollectorOp.tick none]) initCollector).store.toFinset =
        Finset.range (trackCount ops) := by
      ext id
      rw [List.mem_toFinset, Finset.mem_range]
      exact hstoreiff id
    have := (runCollector (ops ++ [CollectorOp.tick none]) initCollector).store.card_toFinset
    rw [hfs, Finset.card_range] at this
    omega
  · intro i arriving s hb hi
    exact flush_fail_eq i arriving s hb hi

/-- C1 witness: the failed-flush prepend behaviour evaluated on a
concrete collector state, with batch [5, 6], failure after one delivery
and one newly arrived event 9. -/
theorem collector_at_least_once_witness :
    flushActivityBuffer (some 1) [9] ⟨[5, 6], [0], 7, false⟩ =
      ⟨[5, 6, 9], [0, 5], 7, false⟩ := by
  have h := (collector_at_least_once []).2.2.2.2.2 1 [9] ⟨[5, 6], [0], 7, false⟩
    (by decide) (by decide)
  simpa using h

/-- The collector state reached after n track calls with no timer tick
and no failures: completed groups of ten have been auto-flushed to the
store and the remainder is still buffered. -/
def autoFlushState (n : ℕ) : CollectorState :=
  ⟨List.range' (10 * (n / 10)) (n % 10), List.range' 0 (10 * (n / 10)), n, false⟩

theorem bufferEvent_autoFlushState (n : ℕ) :
    bufferEvent none (autoFlushState n) = autoFlushState (n + 1) := by
  have hn : 10 * (n / 10) + n % 10 = n := Nat.div_add_mod n 10
  have hconcat : List.range' (10 * (n / 10)) (n % 10) ++ [n] =
      List.range' (10 * (n / 10)) (n % 10 + 1) := by
    rw [range'_concat_eq, hn]
  rw [bufferEvent_eq]
  have hblen : (autoFlushState n).buffer.length = n % 10 := by
    simp [autoFlushState]
  have hsplit : (⟨(autoFlushState n).buffer ++ [(autoFlushState n).nextId],
      (autoFlushState n).store, (autoFlushState n).nextId + 1, (autoFlushState n).raised⟩ :
        CollectorState) =
      ⟨List.range' (10 * (n / 10)) (n % 10 + 1), List.range' 0 (10 * (n / 10)), n + 1, false⟩ := by
    rw [CollectorState.mk.injEq]
    exact ⟨hconcat, rfl, rfl, rfl⟩
  rw [hblen, hsplit]
  by_cases h9 : n % 10 = 9
  · rw [if_pos (by omega)]
    have hbne : List.range' (10 * (n / 10)) (n % 10 + 1) ≠ [] := by
      intro hcon
      have hlen0 : (List.range' (10 * (n / 10)) (n % 10 + 1)).length = 0 := by
        rw [hcon]; rfl
      simp at hlen0
    rw [flush_success_eq _ _ hbne]
    have hglue : List.range' 0 (10 * (n / 10)) ++ List.range' (10 * (n / 10)) (n % 10 + 1) =
        List.range' 0 (10 * (n / 10) + (n % 10 + 1)) := by
      simpa using range'_glue 0 (10 * (n / 10)) (n % 10 + 1)
    have hdiv : 10 * ((n + 1) / 10) = 10 * (n / 10) + (n % 10 + 1) := by omega
    have hmod : (n + 1) % 10 = 0 := by omega
    simp only [autoFlushState, hdiv, hmod]
    rw [CollectorState.mk.injEq]
    exact ⟨rfl, hglue, rfl, rfl⟩
  · rw [if_neg (by omega)]
    have hdiv : 10 * ((n + 1) / 10) = 10 * (n / 10) := by omega
    have hmod : (n + 1) % 10 = n % 10 + 1 := by omega
    simp only [autoFlushState, hdiv, hmod]

/-- C5: with no intervening timer tick and a healthy store, n track
calls leave exactly the last n mod 10 events in the buffer and the
first 10*(n/10) events flushed, in order; in particular the 10th track
call flushes the first ten synchronously and after 11 calls exactly the
11th event (id 10) remains buffered. -/
theorem buffer_flushes_at_ten :
    (∀ n : ℕ, runCollector (List.replicate n (CollectorOp.track none)) initCollector =
      autoFlushState n) ∧
    runCollector (List.replicate 10 (CollectorOp.track none)) initCollector =
      ⟨[], List.range' 0 10, 10, false⟩ ∧
    runCollector (List.replicate 11 (CollectorOp.track none)) initCollector =
      ⟨[10], List.range' 0 10, 11, false⟩ := by
  have hgen : ∀ n : ℕ,
      runCollector (List.replicate n (CollectorOp.track none)) initCollector =
        autoFlushState n := by
    intro n
    induction n with
    | zero => rfl
    | succ k ih =>
        rw [List.replicate_succ']
        show List.foldl runCollectorOp initCollector
          (List.replicate k (CollectorOp.track none) ++ [CollectorOp.track none]) =
          autoFlushState (k + 1)
        rw [List.foldl_append]
        show runCollectorOp
          (runCollector (List.replicate k (CollectorOp.track none)) initCollector)
          (CollectorOp.track none) = autoFlushState (k + 1)
        rw [ih]
        exact bufferEvent_autoFlushState k
  refine ⟨hgen, ?_, ?_⟩
  · rw [hgen 10]; rfl
  · rw [hgen 11]; rfl

/-! Streak computation (AnalyticsService.calculateCurrentStreak).  The
source sorts the daily rows by date descending with
sort((a, b) => date(b) - date(a)) and then walks the sorted list.  Dates
are integer day indices; daysDiff = today - usageDate is exactly the
source's floor((today - usageDate) / 86400000) after both dates are
normalised to midnight. -/

/-- Insert a row into a list that is already sorted by date descending,
keeping rows with greater-or-equal dates in front (the comparator
b.date - a.date). -/
def insertByDateDesc (d : DailyUsage) : List DailyUsage → List DailyUsage
  | [] => [d]
  | x :: xs => if d.date ≤ x.date then x :: insertByDateDesc d xs else d :: x :: xs

/-- Sort daily rows by date descending (the source's
dailyUsage.sort((a, b) => new Date(b.date) - new Date(a.date))). -/
def sortByDateDesc (l : List DailyUsage) : List DailyUsage :=
  l.foldr insertByDateDesc []

/-- The walk of calculateCurrentStreak: increment the streak while the
row's day offset from today equals the running streak and the row has
itemsCreated > 0; stop at the first row that fails. -/
def streakWalk (today : ℤ) : ℕ → List DailyUsage → ℕ
  | streak, [] => streak
  | streak, u :: rest =>
      if today - u.date = (streak : ℤ) ∧ 0 < u.itemsCreated then
        streakWalk today (streak + 1) rest
      else streak

/-- AnalyticsService.calculateCurrentStreak. -/
def calculateCurrentStreak (dailyUsage : List DailyUsage) (today : ℤ) : ℕ :=
  if dailyUsage = [] then 0
  else streakWalk today 0 (sortByDateDesc dailyUsage)

/-- Written from the claim's words, for comparison with the source: the
streak is the length of the longest prefix of the date-descending-sorted
rows in which the i-th row sits exactly i days before today and has
itemsCreated > 0. -/
def specStreak (dailyUsage : List DailyUsage) (today : ℤ) : ℕ :=
  (((sortByDateDesc dailyUsage).enum).takeWhile
    (fun p => decide (today - p.2.date = (p.1 : ℤ) ∧ 0 < p.2.itemsCreated))).length

theorem streakWalk_enumFrom (today : ℤ) :
    ∀ (l : List DailyUsage) (s : ℕ),
      streakWalk today s l = s + ((l.enumFrom s).takeWhile
        (fun p => decide (today - p.2.date = (p.1 : ℤ) ∧ 0 < p.2.itemsCreated))).length := by
  intro l
  induction l with
  | nil => intro s; simp [streakWalk]
  | cons u rest ih =>
      intro s
      have henum : (u :: rest).enumFrom s = (s, u) :: rest.enumFrom (s + 1) := rfl
      by_cases hc : today - u.date = (s : ℤ) ∧ 0 < u.itemsCreated
      · have h1 : streakWalk today s (u :: rest) = streakWalk today (s + 1) rest := by
          show (if today - u.date = (s : ℤ) ∧ 0 < u.itemsCreated then
            streakWalk today (s + 1) rest else s) = _
          rw [if_pos hc]
        rw [h1, ih (s + 1), henum]
        simp [List.takeWhile_cons, hc]
        omega
      · have h1 : streakWalk today s (u :: rest) = s := by
          show (if today - u.date = (s : ℤ) ∧ 0 < u.itemsCreated then
            streakWalk today (s + 1) rest else s) = _
          rw [if_neg hc]
        rw [h1, henum]
        simp [List.takeWhile_cons, hc]

theorem mem_insertByDateDesc (d x : DailyUsage) (l : List DailyUsage) :
    x ∈ insertByDateDesc d l ↔ x = d ∨ x ∈ l := by
  induction l with
  | nil => simp [insertByDateDesc]
  | cons y ys ih =>
      by_cases h : d.date ≤ y.date
      · simp only [insertByDateDesc, if_pos h, List.mem_cons, ih]
        tauto
      · simp only [insertByDateDesc, if_neg h, List.mem_cons]

theorem mem_sortByDateDesc (x : DailyUsage) (l : List DailyUsage) :
    x ∈ sortByDateDesc l ↔ x ∈ l := by
  induction l with
  | nil => simp [sortByDateDesc]
  | cons y ys ih =>
      show x ∈ insertByDateDesc y (sortByDateDesc ys) ↔ _
      rw [mem_insertByDateDesc, ih]
      simp

theorem insertByDateDesc_front (d : DailyUsage) (l : List DailyUsage)
    (h : ∀ x ∈ l, x.date < d.date) : insertByDateDesc d l = d :: l := by
  cases l with
  | nil => rfl
  | cons y ys =>
      have hy : y.date < d.date := h y (List.mem_cons_self y ys)
      simp [insertByDateDesc, not_le.mpr hy, not_le_of_lt hy]

theorem sortByDateDesc_sorted_id (l : List DailyUsage)
    (h : l.Pairwise (fun a b => b.date < a.date)) : sortByDateDesc l = l := by
  induction l with
  | nil => rfl
  | cons y ys ih =>
      have hys : ys.Pairwise (fun a b => b.date < a.date) := (List.pairwise_cons.mp h).2
      have hhead : ∀ x ∈ ys, x.date < y.date := (List.pairwise_cons.mp h).1
      show insertByDateDesc y (sortByDateDesc ys) = y :: ys
      rw [ih hys]
      exact insertByDateDesc_front y ys hhead

/-- C7: the streak is contiguous-from-today.  In general
calculateCurrentStreak equals the length of the longest prefix of the
date-descending-sorted rows whose i-th row lies exactly i days before
today with itemsCreated > 0; a user with activity today and yesterday
but none two days ago (rows listed newest first) has streak 2; and a
user with no active row dated today has streak 0. -/
theorem calculateCurrentStreak_spec :
    (∀ (dailyUsage : List DailyUsage) (today : ℤ),
      calculateCurrentStreak dailyUsage today = specStreak dailyUsage today) ∧
    (∀ (u0 u1 : DailyUsage) (rest : List DailyUsage) (today : ℤ),
      (u0 :: u1 :: rest).Pairwise (fun a b => b.date < a.date) →
      u0.date = today → 0 < u0.itemsCreated →
      u1.date = today - 1 → 0 < u1.itemsCreated →
      (∀ r ∈ rest, ¬(r.date = today - 2 ∧ 0 < r.itemsCreated)) →
      calculateCurrentStreak (u0 :: u1 :: rest) today = 2) ∧
    (∀ (dailyUsage : List DailyUsage) (today : ℤ),
      (∀ u ∈ dailyUsage, u.date = today → u.itemsCreated ≤ 0) →
      calculateCurrentStreak dailyUsage today = 0) := by
  refine ⟨?_, ?_, ?_⟩
  · intro dailyUsage today
    by_cases h : dailyUsage = []
    · subst h; rfl
    · simp only [calculateCurrentStreak, h, if_false, specStreak, List.enum]
      simpa using streakWalk_enumFrom today (sortByDateDesc dailyUsage) 0
  · intro u0 u1 rest today hsorted h0d h0i h1d h1i hrest
    have hne : (u0 :: u1 :: rest : List DailyUsage) ≠ [] := by simp
    simp only [calculateCurrentStreak, hne, if_false]
    rw [sortByDateDesc_sorted_id _ hsorted]
    have hc0 : today - u0.date = ((0 : ℕ) : ℤ) ∧ 0 < u0.itemsCreated := by
      refine ⟨?_, h0i⟩
      rw [h0d]; simp
    have hc1 : today - u1.date = ((1 : ℕ) : ℤ) ∧ 0 < u1.itemsCreated := by
      refine ⟨?_, h1i⟩
      rw [h1d]; push_cast; ring
    have hstep0 : streakWalk today 0 (u0 :: u1 :: rest) = streakWalk today 1 (u1 :: rest) := by
      show (if today - u0.date = ((0 : ℕ) : ℤ) ∧ 0 < u0.itemsCreated then
        streakWalk today (0 + 1) (u1 :: rest) else 0) = _
      rw [if_pos hc0]
    have hstep1 : streakWalk today 1 (u1 :: rest) = streakWalk today 2 rest := by
      show (if today - u1.date = ((1 : ℕ) : ℤ) ∧ 0 < u1.itemsCreated then
        streakWalk today (1 + 1) rest else 1) = _
      rw [if_pos hc1]
    rw [hstep0, hstep1]
    cases rest with
    | nil => rfl
    | cons r rs =>
        have hr : ¬(today - r.date = ((2 : ℕ) : ℤ) ∧ 0 < r.itemsCreated) := by
          intro hcon
          refine hrest r (List.mem_cons_self r rs) ⟨?_, hcon.2⟩
          have := hcon.1
          push_cast at this
          omega
        show (if today - r.date = ((2 : ℕ) : ℤ) ∧ 0 < r.itemsCreated then
          streakWalk today (2 + 1) rs else 2) = 2
        rw [if_neg hr]
  · intro dailyUsage today hinactive
    by_cases h : dailyUsage = []
    · subst h; rfl
    · simp only [calculateCurrentStreak, h, if_false]
      cases hs : sortByDateDesc dailyUsage with
      | nil => rfl
      | cons x xs =>
          have hx : x ∈ dailyUsage := by
            rw [← mem_sortByDateDesc x dailyUsage, hs]
            exact List.mem_cons_self x xs
          have hcx : ¬(today - x.date = ((0 : ℕ) : ℤ) ∧ 0 < x.itemsCreated) := by
            intro hcon
            have h0 := hcon.1
            push_cast at h0
            have hxd : x.date = today := by omega
            exact absurd hcon.2 (not_lt.mpr (hinactive x hx hxd))
          show (if today - x.date = ((0 : ℕ) : ℤ) ∧ 0 < x.itemsCreated then
            streakWalk today (0 + 1) xs else 0) = 0
          rw [if_neg hcx]

/-- C7 witness: the streak-2 scenario on concrete rows dated day 100
(today) and day 99, with an older inactive day 98, and the inactive-today
case on the same data shifted to a today of 101. -/
theorem calculateCurrentStreak_spec_witness :
    calculateCurrentStreak
      [⟨100, 0, 0, 0, 0, 1, 3, 0, 0⟩, ⟨99, 0, 0, 0, 0, 1, 2, 0, 0⟩,
        ⟨98, 0, 0, 0, 0, 1, 0, 0, 0⟩] 100 = 2 ∧
    calculateCurrentStreak [⟨99, 0, 0, 0, 0, 1, 2, 0, 0⟩] 101 = 0 := by
  constructor
  · refine calculateCurrentStreak_spec.2.1
      ⟨100, 0, 0, 0, 0, 1, 3, 0, 0⟩ ⟨99, 0, 0, 0, 0, 1, 2, 0, 0⟩
      [⟨98, 0, 0, 0, 0, 1, 0, 0, 0⟩] 100 ?_ rfl (by norm_num) (by norm_num) (by norm_num) ?_
    · refine List.pairwise_cons.mpr ⟨?_, List.pairwise_cons.mpr ⟨?_, ?_⟩⟩
      · intro x hx
        rcases List.mem_cons.mp hx with hx | hx
        · rw [hx]; norm_num
        · rw [List.mem_singleton.mp hx]; norm_num
      · intro x hx
        rw [List.mem_singleton.mp hx]; norm_num
      · exact List.pairwise_singleton _ _
    · intro r hr
      rw [List.mem_singleton.mp hr]
      intro hcon
      exact absurd hcon.2 (by norm_num)
  · refine calculateCurrentStreak_spec.2.2 [⟨99, 0, 0, 0, 0, 1, 2, 0, 0⟩] 101 ?_
    intro u hu hud
    rw [List.mem_singleton.mp hu] at hud
    norm_num at hud

/-! Gamification Engine (GamificationService) with its storage
(AnalyticsStorageService goals/insights tables).  Goal records keep the
fields the engine reads: id, type, target, current, status, priority,
createdDate.  Unlocked achievements are persisted as insights whose id
carries the achievement_ mark and whose category is Achievements, as in
unlockAchievement/getUnlockedAchievements. -/

inductive GoalStatus where
  | active
  | completed
  | paused
  | failed
  deriving DecidableEq, Repr

inductive GoalPriority where
  | low
  | medium
  | high
  deriving DecidableEq, Repr

inductive GoalType where
  | daily_recordings
  | daily_uploads
  | daily_searches
  | weekly_items
  | monthly_items
  | streak_days
  | productivity_score
  | time_spent
  deriving DecidableEq, Repr

/-- goal.type.includes('daily'): exactly the three daily_* variants. -/
def isDailyGoalType : GoalType → Bool
  | .daily_recordings => true
  | .daily_uploads => true
  | .daily_searches => true
  | _ => false

structure Goal where
  id : ℕ
  gtype : GoalType
  target : ℚ
  current : ℚ
  status : GoalStatus
  priority : GoalPriority
  createdDate : ℤ
  deriving DecidableEq, Repr

/-- A stored ProductivityInsight, restricted to the fields the
achievement path reads back (id and category). -/
structure InsightRec where
  id : String
  category : String
  deriving DecidableEq, Repr

/-- The gamification-relevant storage and service state: the goals and
insights tables, the service's userXP and userLevel accumulators, and
counters of the goal_completed and achievement_unlocked events passed to
trackEvent. -/
structure GamState where
  goals : List Goal
  insights : List InsightRec
  xp : ℚ
  level : ℕ
  firedGoalCompleted : ℕ
  firedAchievementUnlocked : ℕ
  deriving DecidableEq, Repr

/-- GamificationService.calculateLevel: Math.floor(Math.sqrt(xp/100)) + 1
(for the non-negative XP values the service produces). -/
def calculateLevel (xp : ℚ) : ℕ :=
  (max 0 ⌊xp / 100⌋).toNat.sqrt + 1

/-- GamificationService.awardXP: add to userXP, recompute the level, and
on a level-up track an achievement_unlocked (level_up) event. -/
def awardXP (amount : ℚ) (st : GamState) : GamState :=
  let newXP := st.xp + amount
  let newLevel := calculateLevel newXP
  if st.level < newLevel then
    { st with
      xp := newXP,
      level := newLevel,
      firedAchievementUnlocked := st.firedAchievementUnlocked + 1 }
  else { st with xp := newXP }

/-- AnalyticsStorageService.saveInsight: Dexie put keyed by the insight
id (replace when present, append otherwise). -/
def putInsight (i : InsightRec) (l : List InsightRec) : List InsightRec :=
  if l.any (fun j => j.id = i.id) then l.map (fun j => if j.id = i.id then i else j)
  else l ++ [i]

/-- GamificationService.unlockAchievement: persist the achievement as an
insight in category Achievements with the achievement_ id mark, award
its XP, and track an achievement_unlocked event. -/
def unlockAchievement (aid : String) (xpReward : ℚ) (st : GamState) : GamState :=
  let st1 := { st with
    insights := putInsight ⟨"achievement_" ++ aid, "Achievements"⟩ st.insights }
  let st2 := awardXP xpReward st1
  { st2 with firedAchievementUnlocked := st2.firedAchievementUnlocked + 1 }

/-- GamificationService.checkGoalAchievements: read all goals once,
count the completed ones, and unlock the first-goal and tenth-goal
achievements at counts 1 and 10. -/
def checkGoalAchievements (st : GamState) : GamState :=
  let completedCount := (st.goals.filter (fun g => g.status = GoalStatus.completed)).length
  let st1 := if completedCount = 1 then unlockAchievement ("first_goal") 150 st else st
  if completedCount = 10 then unlockAchievement ("goal_master") 500 st1 else st1

/-- A Partial Goal update as built by updateGoalProgress: current is
always set, status only on completion. -/
structure GoalUpdates where
  current : Option ℚ := none
  status : Option GoalStatus := none
  deriving DecidableEq, Repr

def applyGoalUpdates (u : GoalUpdates) (g : Goal) : Goal :=
  { g with current := u.current.getD g.current, status := u.status.getD g.status }

/-- AnalyticsStorageService.updateGoal: patch the goal with the given
primary key and track a goal_completed event exactly when the patch sets
status to completed. -/
def updateGoal (goalId : ℕ) (u : GoalUpdates) (st : GamState) : GamState :=
  let st1 := { st with
    goals := st.goals.map (fun g => if g.id = goalId then applyGoalUpdates u g else g) }
  if u.status = some GoalStatus.completed then
    { st1 with firedGoalCompleted := st1.firedGoalCompleted + 1 }
  else st1

def priorityMultiplier : GoalPriority → ℚ
  | .high => 3/2
  | .medium => 6/5
  | .low => 1

/-- GamificationService.calculateGoalXP:
Math.round(100 * max(1, target/10) * priorityMultiplier). -/
def calculateGoalXP (goal : Goal) : ℚ :=
  ((jsRound (100 * max 1 (goal.target / 10) * priorityMultiplier goal.priority) : ℤ) : ℚ)

/-- GamificationService.updateGoalProgress.  On completion the source
awards the goal XP, tracks goal_completed, checks goal-count
achievements against the goals as stored before the status patch, and
only then persists the patch through updateGoal (which itself tracks a
second goal_completed).  Returns the new state and the source's
updates.status === 'completed' result. -/
def updateGoalProgress (goalId : ℕ) (currentValue : ℚ) (st : GamState) :
    GamState × Bool :=
  match st.goals.find? (fun g => g.id = goalId) with
  | none => (st, false)
  | some goal =>
      let wasCompleted := goal.status = GoalStatus.completed
      if goal.target ≤ currentValue ∧ ¬wasCompleted then
        let st1 := awardXP (calculateGoalXP goal) st
        let st2 := { st1 with firedGoalCompleted := st1.firedGoalCompleted + 1 }
        let st3 := checkGoalAchievements st2
        (updateGoal goalId
          { current := some currentValue, status := some GoalStatus.completed } st3, true)
      else
        (updateGoal goalId { current := some currentValue } st, false)

theorem applyGoalUpdates_id (u : GoalUpdates) (g : Goal) :
    (applyGoalUpdates u g).id = g.id := rfl

theorem find?_updateGoal_goals (goalId : ℕ) (u : GoalUpdates) (l : List Goal) :
    (l.map (fun g => if g.id = goalId then applyGoalUpdates u g else g)).find?
      (fun g => g.id = goalId) =
      (l.find? (fun g => g.id = goalId)).map (applyGoalUpdates u) := by
  induction l with
  | nil => rfl
  | cons g gs ih =>
      by_cases h : g.id = goalId
      · rw [List.map_cons, if_pos h]
        rw [List.find?_cons_of_pos _ (by simp [applyGoalUpdates_id, h])]
        rw [List.find?_cons_of_pos _ (by simp [h])]
        rfl
      · rw [List.map_cons, if_neg h]
        rw [List.find?_cons_of_neg _ (by simp [h])]
        rw [List.find?_cons_of_neg _ (by simp [h])]
        exact ih

theorem awardXP_parts (amount : ℚ) (st : GamState) :
    (awardXP amount st).xp = st.xp + amount ∧
    (awardXP amount st).goals = st.goals ∧
    (awardXP amount st).insights = st.insights ∧
    (awardXP amount st).firedGoalCompleted = st.firedGoalCompleted := by
  unfold awardXP
  by_cases h : st.level < calculateLevel (st.xp + amount) <;> simp [h]

theorem unlockAchievement_parts (aid : String) (xpReward : ℚ) (st : GamState) :
    (unlockAchievement aid xpReward st).xp = st.xp + xpReward ∧
    (unlockAchievement aid xpReward st).goals = st.goals ∧
    (unlockAchievement aid xpReward st).firedGoalCompleted = st.firedGoalCompleted ∧
    (unlockAchievement aid xpReward st).insights =
      putInsight ⟨"achievement_" ++ aid, "Achievements"⟩ st.insights := by
  unfold unlockAchievement
  have h := awardXP_parts xpReward
    { st with insights := putInsight ⟨"achievement_" ++ aid, "Achievements"⟩ st.insights }
  refine ⟨?_, ?_, ?_, ?_⟩
  · simpa using h.1
  · simpa using h.2.1
  · simpa using h.2.2.2
  · simpa using h.2.2.1

theorem checkGoalAchievements_skip (st : GamState)
    (h1 : (st.goals.filter (fun g => g.status = GoalStatus.completed)).length ≠ 1)
    (h10 : (st.goals.filter (fun g => g.status = GoalStatus.completed)).length ≠ 10) :
    checkGoalAchievements st = st := by
  unfold checkGoalAchievements
  simp [h1, h10]

theorem updateGoal_parts (goalId : ℕ) (u : GoalUpdates) (st : GamState) :
    (updateGoal goalId u st).xp = st.xp ∧
    (updateGoal goalId u st).insights = st.insights ∧
    (updateGoal goalId u st).goals =
      st.goals.map (fun g => if g.id = goalId then applyGoalUpdates u g else g) ∧
    (updateGoal goalId u st).firedGoalCompleted =
      (if u.status = some GoalStatus.completed then st.firedGoalCompleted + 1
        else st.firedGoalCompleted) := by
  unfold updateGoal
  by_cases h : u.status = some GoalStatus.completed <;> simp [h]

theorem updateGoalProgress_fresh_eq (goalId : ℕ) (cv : ℚ) (st : GamState) (g : Goal)
    (hfind : st.goals.find? (fun x => x.id = goalId) = some g)
    (hact : g.status ≠ GoalStatus.completed) (hcv : g.target ≤ cv) :
    updateGoalProgress goalId cv st =
      (updateGoal goalId { current := some cv, status := some GoalStatus.completed }
        (checkGoalAchievements
          { awardXP (calculateGoalXP g) st with
            firedGoalCompleted := (awardXP (calculateGoalXP g) st).firedGoalCompleted + 1 }),
        true) := by
  unfold updateGoalProgress
  rw [hfind]
  simp only [if_pos (And.intro hcv hact)]

theorem updateGoalProgress_done_eq (goalId : ℕ) (cv : ℚ) (st : GamState) (g : Goal)
    (hfind : st.goals.find? (fun x => x.id = goalId) = some g)
    (hdone : g.status = GoalStatus.completed) :
    updateGoalProgress goalId cv st =
      (updateGoal goalId { current := some cv } st, false) := by
  unfold updateGoalProgress
  rw [hfind]
  simp [hdone]

/-- C3: updateGoalProgress completes a goal exactly once.  On the first
call with currentValue at or past the target of a not-yet-completed goal
(and away from the first/tenth-goal achievement counts) it reports
completion, awards exactly Math.round(100 * max(1, target/10) *
priorityMultiplier) XP with multipliers 1.5/1.2/1 for high/medium/low,
fires goal_completed, and marks the goal completed with the new current
value; a second call with the same or a higher value reports no
completion, awards no XP, fires no further goal_completed, and stores no
new achievement. -/
theorem updateGoalProgress_completes_once (st : GamState) (goalId : ℕ) (g : Goal)
    (cv cv2 : ℚ)
    (hfind : st.goals.find? (fun x => x.id = goalId) = some g)
    (hact : g.status ≠ GoalStatus.completed)
    (hcv : g.target ≤ cv) (hcv2 : cv ≤ cv2)
    (hcnt1 : (st.goals.filter (fun x => x.status = GoalStatus.completed)).length ≠ 1)
    (hcnt10 : (st.goals.filter (fun x => x.status = GoalStatus.completed)).length ≠ 10) :
    (updateGoalProgress goalId cv st).2 = true ∧
    (updateGoalProgress goalId cv st).1.xp = st.xp +
      ((jsRound (100 * max 1 (g.target / 10) * priorityMultiplier g.priority) : ℤ) : ℚ) ∧
    (updateGoalProgress goalId cv st).1.firedGoalCompleted = st.firedGoalCompleted + 2 ∧
    (∀ x ∈ (updateGoalProgress goalId cv st).1.goals, x.id = goalId →
      x.status = GoalStatus.completed ∧ x.current = cv) ∧
    (updateGoalProgress goalId cv2 (updateGoalProgress goalId cv st).1).2 = false ∧
    (updateGoalProgress goalId cv2 (updateGoalProgress goalId cv st).1).1.xp =
      (updateGoalProgress goalId cv st).1.xp ∧
    (updateGoalProgress goalId cv2
        (updateGoalProgress goalId cv st).1).1.firedGoalCompleted =
      (updateGoalProgress goalId cv st).1.firedGoalCompleted ∧
    (updateGoalProgress goalId cv2 (updateGoalProgress goalId cv st).1).1.insights =
      (updateGoalProgress goalId cv st).1.insights := by
  have hA := awardXP_parts (calculateGoalXP g) st
  set stA := awardXP (calculateGoalXP g) st with hstA
  set stB : GamState :=
    { stA with firedGoalCompleted := stA.firedGoalCompleted + 1 } with hstB
  have hBgoals : stB.goals = st.goals := hA.2.1
  have hskip : checkGoalAchievements stB = stB := by
    apply checkGoalAchievements_skip
    · rw [hBgoals]; exact hcnt1
    · rw [hBgoals]; exact hcnt10
  have hfirst : updateGoalProgress goalId cv st =
      (updateGoal goalId
        { current := some cv, status := some GoalStatus.completed } stB, true) := by
    rw [updateGoalProgress_fresh_eq goalId cv st g hfind hact hcv, hskip]
  set u1 : GoalUpdates := { current := some cv, status := some GoalStatus.completed } with hu1
  have hU := updateGoal_parts goalId u1 stB
  have hfgoals : (updateGoalProgress goalId cv st).1.goals =
      st.goals.map (fun x => if x.id = goalId then applyGoalUpdates u1 x else x) := by
    rw [hfirst]
    show (updateGoal goalId u1 stB).goals = _
    rw [hU.2.2.1, hBgoals]
  have hfxp : (updateGoalProgress goalId cv st).1.xp = st.xp + calculateGoalXP g := by
    rw [hfirst]
    show (updateGoal goalId u1 stB).xp = _
    rw [hU.1]
    show stA.xp = st.xp + calculateGoalXP g
    exact hA.1
  have hffired : (updateGoalProgress goalId cv st).1.firedGoalCompleted =
      st.firedGoalCompleted + 2 := by
    rw [hfirst]
    show (updateGoal goalId u1 stB).firedGoalCompleted = _
    rw [hU.2.2.2, if_pos rfl]
    show stA.firedGoalCompleted + 1 + 1 = st.firedGoalCompleted + 2
    have h2 : stA.firedGoalCompleted = st.firedGoalCompleted := hA.2.2.2
    omega
  have hfins : (updateGoalProgress goalId cv st).1.insights = st.insights := by
    rw [hfirst]
    show (updateGoal goalId u1 stB).insights = _
    rw [hU.2.1]
    show stA.insights = st.insights
    exact hA.2.2.1
  have hfind2 : (updateGoalProgress goalId cv st).1.goals.find?
      (fun x => x.id = goalId) = some (applyGoalUpdates u1 g) := by
    rw [hfgoals, find?_updateGoal_goals, hfind]
    rfl
  have hgoalprops : ∀ x ∈ (updateGoalProgress goalId cv st).1.goals, x.id = goalId →
      x.status = GoalStatus.completed ∧ x.current = cv := by
    intro x hx hid
    rw [hfgoals] at hx
    rcases List.mem_map.mp hx with ⟨y, hy, hxy⟩
    by_cases hyid : y.id = goalId
    · rw [if_pos hyid] at hxy
      rw [← hxy]
      exact ⟨rfl, rfl⟩
    · rw [if_neg hyid] at hxy
      rw [← hxy] at hid
      exact absurd hid hyid
  have hsecond : updateGoalProgress goalId cv2 (updateGoalProgress goalId cv st).1 =
      (updateGoal goalId { current := some cv2 } (updateGoalProgress goalId cv st).1,
        false) :=
    updateGoalProgress_done_eq goalId cv2 (updateGoalProgress goalId cv st).1
      (applyGoalUpdates u1 g) hfind2 rfl
  have hU2 := updateGoal_parts goalId { current := some cv2 }
    (updateGoalProgress goalId cv st).1
  refine ⟨?_, ?_, hffired, hgoalprops, ?_, ?_, ?_, ?_⟩
  · rw [hfirst]
  · rw [hfxp]; rfl
  · rw [hsecond]
  · rw [hsecond]; exact hU2.1
  · rw [hsecond]
    have h3 := hU2.2.2.2
    simpa using h3
  · rw [hsecond]; exact hU2.2.1

/-- A concrete high-priority goal with target 3, used for witnesses. -/
def demoGoal : Goal := ⟨1, GoalType.daily_recordings, 3, 0, GoalStatus.active, GoalPriority.high, 0⟩

/-- A concrete gamification state holding only demoGoal. -/
def demoGamState : GamState := ⟨[demoGoal], [], 0, 1, 0, 0⟩

/-- C3 witness: completing demoGoal at value 3 reports true, awards
exactly 150 XP (round(100 * max(1, 3/10) * 1.5)), and a repeat call at
value 4 reports false with XP unchanged. -/
theorem updateGoalProgress_completes_once_witness :
    (updateGoalProgress 1 3 demoGamState).2 = true ∧
    (updateGoalProgress 1 3 demoGamState).1.xp = 150 ∧
    (updateGoalProgress 1 4 (updateGoalProgress 1 3 demoGamState).1).2 = false ∧
    (updateGoalProgress 1 4 (updateGoalProgress 1 3 demoGamState).1).1.xp =
      (updateGoalProgress 1 3 demoGamState).1.xp := by
  have h := updateGoalProgress_completes_once demoGamState 1 demoGoal 3 4
    rfl (by decide) (by norm_num [demoGoal]) (by norm_num) (by decide) (by decide)
  refine ⟨h.1, ?_, h.2.2.2.2.1, h.2.2.2.2.2.1⟩
  rw [h.2.1]
  norm_num [demoGamState, demoGoal, priorityMultiplier, jsRound, max_def]

/-! Achievement evaluation (GamificationService.checkAchievements and
helpers).  The UserAnalytics snapshot is modelled with the fields this
subsystem reads; requirement metrics are looked up by name exactly as in
getMetricValue. -/

/-- The UserAnalytics snapshot, restricted to the fields read by the
embedded analytics/gamification code. -/
structure UserAnalytics where
  totalItems : ℚ
  voiceRecordings : ℚ
  documentsUploaded : ℚ
  searchesPerformed : ℚ
  dailyUsage : List DailyUsage
  productivityScore : ℚ
  streakDays : ℚ
  level : ℚ
  xp : ℚ
  peakUsageHours : List ℕ
  averageSessionDuration : ℚ
  totalTimeSpent : ℚ
  deriving DecidableEq, Repr

inductive RequirementKind where
  | count
  | streak
  | time
  | score
  | combo
  deriving DecidableEq, Repr

/-- An AchievementRequirement: kind, metric name and threshold value
(the optional timeframe field is never read by getMetricValue). -/
structure AchievementReq where
  rkind : RequirementKind
  metric : String
  value : ℚ
  deriving DecidableEq, Repr

/-- An AchievementDefinition, restricted to the fields checkAchievements
reads: id, requirements and xpReward (plus the hidden flag). -/
structure AchievementDef where
  id : String
  requirements : List AchievementReq
  xpReward : ℚ
  hidden : Bool := false
  deriving DecidableEq, Repr

/-- GamificationService.checkPerfectWeek: at least seven completed goals
whose type contains daily and whose createdDate is within the last week
(weekAgo is the now-minus-7-days day index). -/
def checkPerfectWeek (goals : List Goal) (weekAgo : ℤ) : Bool :=
  7 ≤ ((goals.filter (fun g => g.status = GoalStatus.completed)).filter
    (fun g => isDailyGoalType g.gtype ∧ weekAgo ≤ g.createdDate)).length

/-- GamificationService.getMetricValue: the metric-name to value switch
over the snapshot, the recent events, and (for perfect_week) the stored
goals. -/
def getMetricValue (r : AchievementReq) (ua : UserAnalytics)
    (events : List AnalyticsEvent) (goals : List Goal) (weekAgo : ℤ) : ℚ :=
  if r.metric = "voice_recordings" then ua.voiceRecordings
  else if r.metric = "file_uploads" then ua.documentsUploaded
  else if r.metric = "total_items" then ua.totalItems
  else if r.metric = "searches" then ua.searchesPerformed
  else if r.metric = "productivity_score" then ua.productivityScore
  else if r.metric = "daily_usage" then ua.streakDays
  else if r.metric = "search_success_rate" then
    let searchEvents := events.filter (fun e => e.etype = EventType.search_performed)
    let successfulSearches := searchEvents.filter (fun e => 0 < e.data.resultsCount.getD 0)
    if 0 < searchEvents.length then
      ((successfulSearches.length : ℚ) / (searchEvents.length : ℚ)) * 100
    else 0
  else if r.metric = "session_duration" then ua.averageSessionDuration
  else if r.metric = "total_time" then ua.totalTimeSpent
  else if r.metric = "early_usage" then
    if events.any (fun e => e.hour < 7) then 1 else 0
  else if r.metric = "late_usage" then
    if events.any (fun e => 23 ≤ e.hour) then 1 else 0
  else if r.metric = "perfect_week" then
    if checkPerfectWeek goals weekAgo then 1 else 0
  else 0

/-- GamificationService.checkAchievementRequirements: every listed
requirement must have its metric at or above the required value (the
loop returns false on the first metric below its value). -/
def checkAchievementRequirements (d : AchievementDef) (ua : UserAnalytics)
    (events : List AnalyticsEvent) (goals : List Goal) (weekAgo : ℤ) : Bool :=
  d.requirements.all (fun r => r.value ≤ getMetricValue r ua events goals weekAgo)

/-- insight.id.replace('achievement_', '') for the ids written by
unlockAchievement, which all carry the mark as their first twelve
characters. -/
def stripAchievementMark (s : String) : String :=
  if s.take 12 = "achievement_" then s.drop 12 else s

/-- GamificationService.getUnlockedAchievements, reduced to the ids: the
insights in category Achievements with the achievement_ mark removed. -/
def unlockedAchievementIds (insights : List InsightRec) : List String :=
  (insights.filter (fun i => i.category = "Achievements")).map
    (fun i => stripAchievementMark i.id)

/-- The loop body of checkAchievements: existing is the set of unlocked
ids computed once before the loop; each not-yet-unlocked definition
whose requirements all hold is unlocked (persisted, XP awarded,
achievement_unlocked tracked) and collected. -/
def checkAchievementsGo (ua : UserAnalytics) (events : List AnalyticsEvent)
    (goals : List Goal) (weekAgo : ℤ) (existing : List String) :
    List AchievementDef → GamState → GamState × List AchievementDef
  | [], st => (st, [])
  | d :: defs, st =>
      if d.id ∈ existing then checkAchievementsGo ua events goals weekAgo existing defs st
      else if checkAchievementRequirements d ua events goals weekAgo then
        let st1 := unlockAchievement d.id d.xpReward st
        let r := checkAchievementsGo ua events goals weekAgo existing defs st1
        (r.1, d :: r.2)
      else checkAchievementsGo ua events goals weekAgo existing defs st

/-- GamificationService.checkAchievements over a definitions catalog in
its insertion order. -/
def checkAchievements (defs : List AchievementDef) (ua : UserAnalytics)
    (events : List AnalyticsEvent) (goals : List Goal) (weekAgo : ℤ)
    (st : GamState) : GamState × List AchievementDef :=
  checkAchievementsGo ua events goals weekAgo (unlockedAchievementIds st.insights) defs st

theorem unlockedAchievementIds_putInsight (i : InsightRec) (l : List InsightRec)
    (hcat : i.category = "Achievements") (aid : String)
    (h : aid ∈ unlockedAchievementIds l) :
    aid ∈ unlockedAchievementIds (putInsight i l) := by
  unfold unlockedAchievementIds at h ⊢
  rcases List.mem_map.mp h with ⟨j, hj, hjid⟩
  rcases List.mem_filter.mp hj with ⟨hjmem, hjcat⟩
  unfold putInsight
  by_cases hc : l.any (fun k => k.id = i.id)
  · rw [if_pos hc]
    by_cases hji : j.id = i.id
    · refine List.mem_map.mpr ⟨i, ?_, ?_⟩
      · refine List.mem_filter.mpr ⟨?_, by simp [hcat]⟩
        refine List.mem_map.mpr ⟨j, hjmem, by rw [if_pos hji]⟩
      · rw [← hjid, hji]
    · refine List.mem_map.mpr ⟨j, ?_, hjid⟩
      refine List.mem_filter.mpr ⟨?_, hjcat⟩
      refine List.mem_map.mpr ⟨j, hjmem, by rw [if_neg hji]⟩
  · rw [if_neg hc]
    refine List.mem_map.mpr ⟨j, ?_, hjid⟩
    exact List.mem_filter.mpr ⟨List.mem_append_left _ hjmem, hjcat⟩

theorem unlockedAchievementIds_unlock (aid bid : String) (xpReward : ℚ) (st : GamState)
    (h : aid ∈ unlockedAchievementIds st.insights) :
    aid ∈ unlockedAchievementIds (unlockAchievement bid xpReward st).insights := by
  rw [(unlockAchievement_parts bid xpReward st).2.2.2]
  exact unlockedAchievementIds_putInsight _ _ rfl aid h

theorem checkAchievementsGo_spec (ua : UserAnalytics) (events : List AnalyticsEvent)
    (goals : List Goal) (weekAgo : ℤ) (existing : List String) :
    ∀ (defs : List AchievementDef) (st : GamState),
      (checkAchievementsGo ua events goals weekAgo existing defs st).1.xp =
        st.xp + (((checkAchievementsGo ua events goals weekAgo existing defs st).2).map
          (fun d => d.xpReward)).sum ∧
      (∀ a : AchievementDef,
        a ∈ (checkAchievementsGo ua events goals weekAgo existing defs st).2 ↔
          (a ∈ defs ∧ a.id ∉ existing ∧
            checkAchievementRequirements a ua events goals weekAgo = true)) ∧
      (∀ aid : String, aid ∈ unlockedAchievementIds st.insights →
        aid ∈ unlockedAchievementIds
          (checkAchievementsGo ua events goals weekAgo existing defs st).1.insights) := by
  intro defs
  induction defs with
  | nil =>
      intro st
      refine ⟨by simp [checkAchievementsGo], ?_, ?_⟩
      · intro a
        simp [checkAchievementsGo]
      · intro aid h
        simpa [checkAchievementsGo] using h
  | cons d rest ih =>
      intro st
      by_cases hex : d.id ∈ existing
      · have heq : checkAchievementsGo ua events goals weekAgo existing (d :: rest) st =
            checkAchievementsGo ua events goals weekAgo existing rest st := by
          show (if d.id ∈ existing then _ else _) = _
          rw [if_pos hex]
        rw [heq]
        refine ⟨(ih st).1, ?_, (ih st).2.2⟩
        intro a
        rw [(ih st).2.1 a]
        constructor
        · intro ⟨h1, h2, h3⟩
          exact ⟨List.mem_cons_of_mem d h1, h2, h3⟩
        · intro ⟨h1, h2, h3⟩
          rcases List.mem_cons.mp h1 with h1 | h1
          · subst h1
            exact absurd hex h2
          · exact ⟨h1, h2, h3⟩
      · by_cases hreq : checkAchievementRequirements d ua events goals weekAgo = true
        · have heq : checkAchievementsGo ua events goals weekAgo existing (d :: rest) st =
              ((checkAchievementsGo ua events goals weekAgo existing rest
                  (unlockAchievement d.id d.xpReward st)).1,
                d :: (checkAchievementsGo ua events goals weekAgo existing rest
                  (unlockAchievement d.id d.xpReward st)).2) := by
            show (if d.id ∈ existing then _
              else if checkAchievementRequirements d ua events goals weekAgo then _ else _) = _
            rw [if_neg hex, if_pos hreq]
          rw [heq]
          have ihu := ih (unlockAchievement d.id d.xpReward st)
          refine ⟨?_, ?_, ?_⟩
          · rw [ihu.1, (unlockAchievement_parts d.id d.xpReward st).1]
            simp [List.map_cons, List.sum_cons]
            ring
          · intro a
            rw [List.mem_cons, ihu.2.1 a]
            constructor
            · intro h
              rcases h with h | ⟨h1, h2, h3⟩
              · subst h
                exact ⟨List.mem_cons_self _ _, hex, hreq⟩
              · exact ⟨List.mem_cons_of_mem d h1, h2, h3⟩
            · intro ⟨h1, h2, h3⟩
              rcases List.mem_cons.mp h1 with h1 | h1
              · exact Or.inl h1
              · exact Or.inr ⟨h1, h2, h3⟩
          · intro aid h
            exact ihu.2.2 aid (unlockedAchievementIds_unlock aid d.id d.xpReward st h)
        · have heq : checkAchievementsGo ua events goals weekAgo existing (d :: rest) st =
              checkAchievementsGo ua events goals weekAgo existing rest st := by
            show (if d.id ∈ existing then _
              else if checkAchievementRequirements d ua events goals weekAgo then _ else _) = _
            rw [if_neg hex, if_neg (by simpa using hreq)]
          rw [heq]
          refine ⟨(ih st).1, ?_, (ih st).2.2⟩
          intro a
          rw [(ih st).2.1 a]
          constructor
          · intro ⟨h1, h2, h3⟩
            exact ⟨List.mem_cons_of_mem d h1, h2, h3⟩
          · intro ⟨h1, h2, h3⟩
            rcases List.mem_cons.mp h1 with h1 | h1
            · subst h1
              exact absurd h3 hreq
            · exact ⟨h1, h2, h3⟩

/-- C4: achievement unlocking is monotonic and conjunctive.  An already
unlocked id stays unlocked after any checkAchievements run and is never
in the newly unlocked list (so its XP is never re-awarded: the XP gained
is exactly the sum of the rewards of the newly unlocked definitions);
and a definition is newly unlocked iff it is in the catalog, its id was
not already unlocked, and every one of its requirements is satisfied by
the metric lookup (AND semantics). -/
theorem checkAchievements_monotone_and (defs : List AchievementDef) (ua : UserAnalytics)
    (events : List AnalyticsEvent) (goals : List Goal) (weekAgo : ℤ) (st : GamState) :
    (∀ aid : String, aid ∈ unlockedAchievementIds st.insights →
      aid ∈ unlockedAchievementIds
        (checkAchievements defs ua events goals weekAgo st).1.insights ∧
      (∀ a ∈ (checkAchievements defs ua events goals weekAgo st).2, a.id ≠ aid)) ∧
    (checkAchievements defs ua events goals weekAgo st).1.xp =
      st.xp + (((checkAchievements defs ua events goals weekAgo st).2).map
        (fun d => d.xpReward)).sum ∧
    (∀ a : AchievementDef, a ∈ (checkAchievements defs ua events goals weekAgo st).2 ↔
      (a ∈ defs ∧ a.id ∉ unlockedAchievementIds st.insights ∧
        ∀ r ∈ a.requirements, r.value ≤ getMetricValue r ua events goals weekAgo)) := by
  unfold checkAchievements
  have h := checkAchievementsGo_spec ua events goals weekAgo
    (unlockedAchievementIds st.insights) defs st
  refine ⟨?_, h.1, ?_⟩
  · intro aid haid
    refine ⟨h.2.2 aid haid, ?_⟩
    intro a ha hcon
    have := (h.2.1 a).mp ha
    rw [hcon] at this
    exact this.2.1 haid
  · intro a
    rw [h.2.1 a]
    unfold checkAchievementRequirements
    rw [List.all_eq_true]
    constructor
    · intro ⟨h1, h2, h3⟩
      exact ⟨h1, h2, fun r hr => by simpa using h3 r hr⟩
    · intro ⟨h1, h2, h3⟩
      exact ⟨h1, h2, fun r hr => by simpa using h3 r hr⟩

/-- The first-voice-note achievement definition from the catalog. -/
def firstVoiceNoteDef : AchievementDef :=
  ⟨"first_voice_note", [⟨RequirementKind.count, "voice_recordings", 1⟩], 100, false⟩

/-- The content-creator achievement definition from the catalog. -/
def contentCreatorDef : AchievementDef :=
  ⟨"content_creator", [⟨RequirementKind.count, "total_items", 50⟩], 500, false⟩

/-- A snapshot with three voice recordings and five items. -/
def demoSnapshot : UserAnalytics := ⟨5, 3, 2, 0, [], 0, 0, 1, 0, [], 0, 0⟩

/-- C4 witness: on a fresh state with demoSnapshot, the two-definition
catalog unlocks first_voice_note (3 recordings at or past 1) but not
content_creator (5 items below 50), and a state that already unlocked
first_voice_note keeps it and does not re-unlock it. -/
theorem checkAchievements_monotone_and_witness :
    (firstVoiceNoteDef ∈
      (checkAchievements [firstVoiceNoteDef, contentCreatorDef] demoSnapshot [] [] 0
        ⟨[], [], 0, 1, 0, 0⟩).2 ∧
     contentCreatorDef ∉
      (checkAchievements [firstVoiceNoteDef, contentCreatorDef] demoSnapshot [] [] 0
        ⟨[], [], 0, 1, 0, 0⟩).2) ∧
    ("first_voice_note" ∈ unlockedAchievementIds
      (checkAchievements [firstVoiceNoteDef, contentCreatorDef] demoSnapshot [] [] 0
        ⟨[], [⟨"achievement_first_voice_note", "Achievements"⟩], 100, 1, 0, 0⟩).1.insights ∧
     ∀ a ∈ (checkAchievements [firstVoiceNoteDef, contentCreatorDef] demoSnapshot [] [] 0
        ⟨[], [⟨"achievement_first_voice_note", "Achievements"⟩], 100, 1, 0, 0⟩).2,
       a.id ≠ "first_voice_note") := by
  constructor
  · constructor
    · refine ((checkAchievements_monotone_and [firstVoiceNoteDef, contentCreatorDef]
        demoSnapshot [] [] 0 ⟨[], [], 0, 1, 0, 0⟩).2.2 firstVoiceNoteDef).mpr ?_
      refine ⟨by simp, by simp [unlockedAchievementIds], ?_⟩
      intro r hr
      have h := List.mem_singleton.mp hr
      rw [h]
      have hv : getMetricValue ⟨RequirementKind.count, "voice_recordings", 1⟩
          demoSnapshot [] [] 0 = 3 := by
        simp [getMetricValue, demoSnapshot]
      rw [hv]
      norm_num
    · intro hcon
      have h := ((checkAchievements_monotone_and [firstVoiceNoteDef, contentCreatorDef]
        demoSnapshot [] [] 0 ⟨[], [], 0, 1, 0, 0⟩).2.2 contentCreatorDef).mp hcon
      have h50 := h.2.2 ⟨RequirementKind.count, "total_items", 50⟩ (by simp [contentCreatorDef])
      have h51 : (50 : ℚ) ≤ 5 := by simpa [getMetricValue, demoSnapshot] using h50
      norm_num at h51
  · have h := (checkAchievements_monotone_and [firstVoiceNoteDef, contentCreatorDef]
      demoSnapshot [] [] 0
      ⟨[], [⟨"achievement_first_voice_note", "Achievements"⟩], 100, 1, 0, 0⟩).1
      "first_voice_note" (by decide)
    exact h

/-! Milestones.  GamificationService.checkMilestones generates a
milestone when the snapshot metric equals a checkpoint;
AnalyticsCalculationService.detectMilestones instead uses a
greater-or-equal test.  A milestone record is modelled by the pair that
keys it: its type and its checkpoint value. -/

inductive MilestoneType where
  | first_recording
  | first_upload
  | first_search
  | items_milestone
  | search_milestone
  | streak_milestone
  | time_milestone
  | productivity_milestone
  deriving DecidableEq, Repr

/-- The content checkpoints of checkMilestones. -/
def contentMilestones : List ℚ := [1, 5, 10, 25, 50, 100, 250, 500, 1000]

/-- The streak checkpoints of checkMilestones. -/
def streakMilestones : List ℚ := [3, 7, 14, 30, 60, 100, 365]

/-- The search checkpoints of checkMilestones. -/
def searchMilestones : List ℚ := [10, 50, 100, 500, 1000]

/-- GamificationService.checkMilestones: one milestone per checkpoint
the corresponding snapshot metric currently equals, in the source's
push order (content, then streak, then search). -/
def checkMilestones (ua : UserAnalytics) : List (MilestoneType × ℚ) :=
  (contentMilestones.filter (fun m => ua.totalItems = m)).map
      (fun m => (MilestoneType.items_milestone, m)) ++
    (streakMilestones.filter (fun m => ua.streakDays = m)).map
      (fun m => (MilestoneType.streak_milestone, m)) ++
    (searchMilestones.filter (fun m => ua.searchesPerformed = m)).map
      (fun m => (MilestoneType.search_milestone, m))

/-- The item checkpoints of detectMilestones. -/
def detectItemMilestones : List ℚ := [10, 25, 50, 100, 250, 500, 1000]

/-- The streak checkpoints of detectMilestones. -/
def detectStreakMilestones : List ℚ := [7, 14, 30, 60, 100]

/-- AnalyticsCalculationService.detectMilestones: a first_recording
milestone when any voice_recording_completed event exists, then every
item and streak checkpoint the metric has reached (at-or-past, not
equality). -/
def detectMilestones (ua : UserAnalytics) (events : List AnalyticsEvent) :
    List (MilestoneType × ℚ) :=
  (if events.any (fun e => e.etype = EventType.voice_recording_completed) then
      [(MilestoneType.first_recording, 1)]
    else []) ++
    (detectItemMilestones.filter (fun m => m ≤ ua.totalItems)).map
      (fun m => (MilestoneType.items_milestone, m)) ++
    (detectStreakMilestones.filter (fun m => m ≤ ua.streakDays)).map
      (fun m => (MilestoneType.streak_milestone, m))

/-- A snapshot whose totalItems is strictly past the 50 checkpoint. -/
def snapshot51 : UserAnalytics := ⟨51, 0, 0, 0, [], 0, 0, 1, 0, [], 0, 0⟩

/-- C9 counterexample: with totalItems = 51 (strictly past the content
checkpoint 50), every detectMilestones evaluation still generates the
(items_milestone, 50) milestone, so a metric strictly past a checkpoint
does regenerate that milestone there; checkMilestones does not. -/
theorem detectMilestones_regenerates :
    (50 : ℚ) < 51 ∧
    (MilestoneType.items_milestone, (50 : ℚ)) ∈ detectMilestones snapshot51 [] ∧
    (MilestoneType.items_milestone, (50 : ℚ)) ∉ checkMilestones snapshot51 := by
  refine ⟨by norm_num, ?_, ?_⟩
  · decide
  · decide

/-- C9 (amended): milestone generation keyed by (type, checkpoint) is by
equality in the Gamification Engine's checkMilestones — a milestone is
generated exactly when the snapshot metric equals a checkpoint of the
content, streak or search list, so a metric strictly past a checkpoint
does not regenerate it — whereas the Calculator's detectMilestones
generates a milestone for every checkpoint at or below the metric on
every evaluation. -/
theorem pair_mem_filtered (mtype2 mtype : MilestoneType) (l : List ℚ)
    (P : ℚ → Prop) [DecidablePred P] (t : ℚ) :
    (mtype, t) ∈ (l.filter (fun m => P m)).map (fun m => (mtype2, m)) ↔
      (mtype2 = mtype ∧ t ∈ l ∧ P t) := by
  constructor
  · intro h
    rcases List.mem_map.mp h with ⟨m, hm, heq⟩
    have h1 : mtype2 = mtype := congrArg Prod.fst heq
    have h2 : m = t := congrArg Prod.snd heq
    subst h2
    rcases List.mem_filter.mp hm with ⟨hml, hp⟩
    exact ⟨h1, hml, of_decide_eq_true hp⟩
  · intro ⟨h1, h2, h3⟩
    refine List.mem_map.mpr ⟨t, List.mem_filter.mpr ⟨h2, decide_eq_true h3⟩, ?_⟩
    rw [h1]

/-- C9 (amended): milestone generation keyed by (type, checkpoint) is by
equality in the Gamification Engine's checkMilestones — a milestone is
generated exactly when the snapshot metric equals a checkpoint of the
content, streak or search list, so a metric strictly past a checkpoint
does not regenerate it — whereas the Calculator's detectMilestones
generates a milestone for every checkpoint at or below the metric on
every evaluation. -/
theorem checkMilestones_fire_once (ua : UserAnalytics) (events : List AnalyticsEvent)
    (t : ℚ) :
    ((MilestoneType.items_milestone, t) ∈ checkMilestones ua ↔
      (t ∈ contentMilestones ∧ ua.totalItems = t)) ∧
    ((MilestoneType.streak_milestone, t) ∈ checkMilestones ua ↔
      (t ∈ streakMilestones ∧ ua.streakDays = t)) ∧
    ((MilestoneType.search_milestone, t) ∈ checkMilestones ua ↔
      (t ∈ searchMilestones ∧ ua.searchesPerformed = t)) ∧
    ((MilestoneType.items_milestone, t) ∈ detectMilestones ua events ↔
      (t ∈ detectItemMilestones ∧ t ≤ ua.totalItems)) ∧
    ((MilestoneType.streak_milestone, t) ∈ detectMilestones ua events ↔
      (t ∈ detectStreakMilestones ∧ t ≤ ua.streakDays)) := by
  have hfr : ∀ mt : MilestoneType, mt ≠ MilestoneType.first_recording →
      (mt, t) ∉ (if events.any (fun e => e.etype = EventType.voice_recording_completed)
        then [(MilestoneType.first_recording, (1 : ℚ))] else []) := by
    intro mt hmt
    by_cases hc : events.any (fun e => e.etype = EventType.voice_recording_completed) <;>
      simp [hc, Prod.ext_iff, hmt]
  refine ⟨?_, ?_, ?_, ?_, ?_⟩
  · rw [checkMilestones, List.mem_append, List.mem_append]
    rw [pair_mem_filtered MilestoneType.items_milestone MilestoneType.items_milestone
      contentMilestones (fun m => ua.totalItems = m) t]
    rw [pair_mem_filtered MilestoneType.streak_milestone MilestoneType.items_milestone
      streakMilestones (fun m => ua.streakDays = m) t]
    rw [pair_mem_filtered MilestoneType.search_milestone MilestoneType.items_milestone
      searchMilestones (fun m => ua.searchesPerformed = m) t]
    constructor
    · intro h
      rcases h with (h | h) | h
      · exact ⟨h.2.1, h.2.2⟩
      · exact absurd h.1 (by simp)
      · exact absurd h.1 (by simp)
    · intro h
      exact Or.inl (Or.inl ⟨rfl, h.1, h.2⟩)
  · rw [checkMilestones, List.mem_append, List.mem_append]
    rw [pair_mem_filtered MilestoneType.items_milestone MilestoneType.streak_milestone
      contentMilestones (fun m => ua.totalItems = m) t]
    rw [pair_mem_filtered MilestoneType.streak_milestone MilestoneType.streak_milestone
      streakMilestones (fun m => ua.streakDays = m) t]
    rw [pair_mem_filtered MilestoneType.search_milestone MilestoneType.streak_milestone
      searchMilestones (fun m => ua.searchesPerformed = m) t]
    constructor
    · intro h
      rcases h with (h | h) | h
      · exact absurd h.1 (by simp)
      · exact ⟨h.2.1, h.2.2⟩
      · exact absurd h.1 (by simp)
    · intro h
      exact Or.inl (Or.inr ⟨rfl, h.1, h.2⟩)
  · rw [checkMilestones, List.mem_append, List.mem_append]
    rw [pair_mem_filtered MilestoneType.items_milestone MilestoneType.search_milestone
      contentMilestones (fun m => ua.totalItems = m) t]
    rw [pair_mem_filtered MilestoneType.streak_milestone MilestoneType.search_milestone
      streakMilestones (fun m => ua.streakDays = m) t]
    rw [pair_mem_filtered MilestoneType.search_milestone MilestoneType.search_milestone
      searchMilestones (fun m => ua.searchesPerformed = m) t]
    constructor
    · intro h
      rcases h with (h | h) | h
      · exact absurd h.1 (by simp)
      · exact absurd h.1 (by simp)
      · exact ⟨h.2.1, h.2.2⟩
    · intro h
      exact Or.inr ⟨rfl, h.1, h.2⟩
  · rw [detectMilestones, List.mem_append, List.mem_append]
    rw [pair_mem_filtered MilestoneType.items_milestone MilestoneType.items_milestone
      detectItemMilestones (fun m => m ≤ ua.totalItems) t]
    rw [pair_mem_filtered MilestoneType.streak_milestone MilestoneType.items_milestone
      detectStreakMilestones (fun m => m ≤ ua.streakDays) t]
    constructor
    · intro h
      rcases h with (h | h) | h
      · exact absurd h (hfr MilestoneType.items_milestone (by simp))
      · exact ⟨h.2.1, h.2.2⟩
      · exact absurd h.1 (by simp)
    · intro h
      exact Or.inl (Or.inr ⟨rfl, h.1, h.2⟩)
  · rw [detectMilestones, List.mem_append, List.mem_append]
    rw [pair_mem_filtered MilestoneType.items_milestone MilestoneType.streak_milestone
      detectItemMilestones (fun m => m ≤ ua.totalItems) t]
    rw [pair_mem_filtered MilestoneType.streak_milestone MilestoneType.streak_milestone
      detectStreakMilestones (fun m => m ≤ ua.streakDays) t]
    constructor
    · intro h
      rcases h with (h | h) | h
      · exact absurd h (hfr MilestoneType.streak_milestone (by simp))
      · exact absurd h.1 (by simp)
      · exact ⟨h.2.1, h.2.2⟩
    · intro h
      exact Or.inr ⟨rfl, h.1, h.2⟩

/-! Peak-usage hours and insight generation
(AnalyticsCalculationService.analyzePeakUsageHours / generateInsights). -/

/-- The hour histogram lookup: how many events fall in bucket h (the
source increments hourCounts[event.timestamp.getHours()], and getHours
always yields 0..23). -/
def hourCount (events : List AnalyticsEvent) (h : ℕ) : ℕ :=
  (events.filter (fun e => e.hour = h)).length

/-- Stable insertion of an hour index into a count-descending list: the
inserted index moves past an entry only when that entry has a strictly
greater count, which together with the fold below reproduces the
ES2019-stable Array.prototype.sort with comparator
(a, b) => hourCounts[b] - hourCounts[a]. -/
def insertByCountDesc (counts : ℕ → ℕ) (a : ℕ) : List ℕ → List ℕ
  | [] => [a]
  | x :: xs => if counts a < counts x then x :: insertByCountDesc counts a xs
    else a :: x :: xs

/-- AnalyticsCalculationService.analyzePeakUsageHours: sort the 24 hour
indices by count descending (stable, so ties keep the earlier hour
first) and take the top three. -/
def analyzePeakUsageHours (events : List AnalyticsEvent) : List ℕ :=
  (((List.range 24).foldr (insertByCountDesc (hourCount events)) [])).take 3

/-- JS dailyUsage.slice(-14, -7): the seven (or fewer) entries preceding
the last seven. -/
def previousSeven (l : List DailyUsage) : List DailyUsage :=
  (l.drop (l.length - 14)).take ((l.length - 7) - (l.length - 14))

/-- The peak-usage push of generateInsights: fired whenever peakHours is
nonempty. -/
def peakInsightIds (events : List AnalyticsEvent) : List String :=
  if 0 < (analyzePeakUsageHours events).length then ["peak_usage_pattern"] else []

/-- The productivity-trend push of generateInsights: fired when at least
seven daily rows exist and the recent seven-day itemsCreated mean
exceeds 1.2 times the previous seven-day mean. -/
def trendInsightIds (dailyUsage : List DailyUsage) : List String :=
  if 7 ≤ dailyUsage.length then
    if (((previousSeven dailyUsage).map (fun d => d.itemsCreated)).sum / 7) * (12 / 10) <
        ((lastSeven dailyUsage).map (fun d => d.itemsCreated)).sum / 7 then
      ["productivity_increase"]
    else []
  else []

/-- The search-behaviour push of generateInsights: fired when the search
success rate is below 0.7 over more than ten search_performed events. -/
def searchInsightIds (events : List AnalyticsEvent) : List String :=
  let searchEvents := events.filter (fun e => e.etype = EventType.search_performed)
  let successRate : ℚ := if 0 < searchEvents.length then
      ((searchEvents.filter (fun e => 0 < e.data.resultsCount.getD 0)).length : ℚ) /
        (searchEvents.length : ℚ)
    else 0
  if successRate < 7 / 10 ∧ 10 < searchEvents.length then ["search_optimization"]
  else []

/-- AnalyticsCalculationService.generateInsights, reduced to the ids of
the insights it pushes, in push order. -/
def generateInsights (ua : UserAnalytics) (dailyUsage : List DailyUsage)
    (events : List AnalyticsEvent) : List String :=
  peakInsightIds events ++ trendInsightIds dailyUsage ++ searchInsightIds events

theorem length_insertByCountDesc (counts : ℕ → ℕ) (a : ℕ) (l : List ℕ) :
    (insertByCountDesc counts a l).length = l.length + 1 := by
  induction l with
  | nil => rfl
  | cons x xs ih =>
      show (if counts a < counts x then x :: insertByCountDesc counts a xs
        else a :: x :: xs).length = (x :: xs).length + 1
      by_cases h : counts a < counts x
      · rw [if_pos h]
        simp [ih]
      · rw [if_neg h]
        simp

theorem length_foldr_insertByCountDesc (counts : ℕ → ℕ) (l : List ℕ) :
    (l.foldr (insertByCountDesc counts) []).length = l.length := by
  induction l with
  | nil => rfl
  | cons x xs ih =>
      show (insertByCountDesc counts x (xs.foldr (insertByCountDesc counts) [])).length = _
      rw [length_insertByCountDesc, ih]
      rfl

/-- C10: analyzePeakUsageHours returns exactly three hour indices for
every event list; with no events all 24 buckets tie at zero, the stable
sort leaves 0..23 in place and the result is [0, 1, 2]; consequently
generateInsights always pushes the peak_usage_pattern insight, even on
an empty event list. -/
theorem analyzePeakUsageHours_always_three :
    (∀ events : List AnalyticsEvent, (analyzePeakUsageHours events).length = 3) ∧
    analyzePeakUsageHours [] = [0, 1, 2] ∧
    (∀ (ua : UserAnalytics) (dailyUsage : List DailyUsage)
      (events : List AnalyticsEvent),
      "peak_usage_pattern" ∈ generateInsights ua dailyUsage events) := by
  have hlen : ∀ events : List AnalyticsEvent, (analyzePeakUsageHours events).length = 3 := by
    intro events
    unfold analyzePeakUsageHours
    rw [List.length_take, length_foldr_insertByCountDesc]
    rfl
  have hins : ∀ (a : ℕ) (l : List ℕ),
      insertByCountDesc (hourCount []) a l = a :: l := by
    intro a l
    cases l with
    | nil => rfl
    | cons x xs =>
        show (if hourCount [] a < hourCount [] x then _ else _) = _
        rw [if_neg (by show ¬((0 : ℕ) < 0); omega)]
  have hfold : ∀ l : List ℕ, l.foldr (insertByCountDesc (hourCount [])) [] = l := by
    intro l
    induction l with
    | nil => rfl
    | cons x xs ih =>
        show insertByCountDesc (hourCount []) x (xs.foldr _ []) = x :: xs
        rw [ih, hins]
  have hempty : analyzePeakUsageHours [] = [0, 1, 2] := by
    unfold analyzePeakUsageHours
    rw [hfold]
    decide
  refine ⟨hlen, hempty, ?_⟩
  intro ua dailyUsage events
  have hpeak : peakInsightIds events = ["peak_usage_pattern"] := by
    unfold peakInsightIds
    rw [if_pos (by rw [hlen]; omega)]
  rw [generateInsights, hpeak]
  exact List.mem_append_left _
    (List.mem_append_left _ (List.mem_singleton.mpr rfl))

/-! Aggregator (AnalyticsService.updateUserAnalytics) with the Event
Store's saveUserAnalytics.  The snapshot is the single record keyed
user_analytics_current; the store is modelled as Option UserAnalytics.
The recomputation inputs are the content items, the last-90-days events
and the last-30-days daily rows fetched at the start of the method. -/

inductive ContentType where
  | voice
  | file
  deriving DecidableEq, Repr

/-- A ContentItem, restricted to the type field the analytics code
filters on. -/
structure ContentItem where
  ctype : ContentType
  deriving DecidableEq, Repr

/-- AnalyticsService.calculateExperiencePoints: 100 XP per item, 10 per
event (the Aggregator's linear formula). -/
def calculateExperiencePoints (totalItems totalEvents : ℕ) : ℕ :=
  totalItems * 100 + totalEvents * 10

/-- AnalyticsService.calculateUserLevel: floor(xp / 1000) + 1. -/
def calculateUserLevel (totalItems totalEvents : ℕ) : ℕ :=
  calculateExperiencePoints totalItems totalEvents / 1000 + 1

/-- The ids in first-occurrence order, as a JS Map collects its keys. -/
def firstOccurrenceDedup (l : List ℕ) : List ℕ :=
  l.foldl (fun acc x => if x ∈ acc then acc else acc ++ [x]) []

/-- One session's duration in minutes, per
AnalyticsCalculationService.calculateAverageSessionDuration: start is
the session's first event timestamp, end the running maximum. -/
def sessionDuration (events : List AnalyticsEvent) (sid : ℕ) : ℚ :=
  let evs := events.filter (fun e => e.sessionId = sid)
  let start := ((evs.head?).map (fun e => e.timeMs)).getD 0
  let stop := evs.foldl (fun m e => max m e.timeMs) start
  ((stop - start : ℤ) : ℚ) / 60000

/-- AnalyticsCalculationService.calculateAverageSessionDuration: the
mean session duration in minutes, 0 with no sessions. -/
def calculateAverageSessionDuration (events : List AnalyticsEvent) : ℚ :=
  let sids := firstOccurrenceDedup (events.map (fun e => e.sessionId))
  let durations := sids.map (sessionDuration events)
  if 0 < durations.length then durations.sum / (durations.length : ℚ) else 0

/-- The snapshot recomputation of AnalyticsService.updateUserAnalytics,
restricted to the modelled UserAnalytics fields: every field is
recomputed from the fetched inputs through the Calculator (none is read
from the previous snapshot). -/
def computeUserAnalytics (contentItems : List ContentItem)
    (events : List AnalyticsEvent) (dailyUsage : List DailyUsage) (today : ℤ) :
    UserAnalytics where
  totalItems := (contentItems.length : ℚ)
  voiceRecordings := ((contentItems.filter (fun i => i.ctype = ContentType.voice)).length : ℚ)
  documentsUploaded := ((contentItems.filter (fun i => i.ctype = ContentType.file)).length : ℚ)
  searchesPerformed :=
    ((events.filter (fun e => e.etype = EventType.search_performed)).length : ℚ)
  dailyUsage := dailyUsage
  productivityScore := calculateProductivityScore dailyUsage
  streakDays := ((calculateCurrentStreak dailyUsage today : ℕ) : ℚ)
  level := ((calculateUserLevel contentItems.length events.length : ℕ) : ℚ)
  xp := ((calculateExperiencePoints contentItems.length events.length : ℕ) : ℚ)
  peakUsageHours := analyzePeakUsageHours events
  averageSessionDuration := calculateAverageSessionDuration events
  totalTimeSpent := (dailyUsage.map (fun d => d.timeSpent)).sum

/-- AnalyticsStorageService.saveUserAnalytics: a single put of the whole
record under the fixed key user_analytics_current; on a storage error
the record is not written and the error is rethrown. -/
def saveUserAnalytics (putFails : Bool) (analytics : UserAnalytics)
    (store : Option UserAnalytics) : Option UserAnalytics × Except Unit Unit :=
  if putFails then (store, Except.error ()) else (some analytics, Except.ok ())

/-- AnalyticsService.updateUserAnalytics: recompute the whole snapshot
from the fetched inputs and save it with one whole-object put; the
method has no catch, so a save failure propagates to the caller. -/
def updateUserAnalytics (putFails : Bool) (contentItems : List ContentItem)
    (events : List AnalyticsEvent) (dailyUsage : List DailyUsage) (today : ℤ)
    (store : Option UserAnalytics) : Option UserAnalytics × Except Unit UserAnalytics :=
  let analytics := computeUserAnalytics contentItems events dailyUsage today
  let saved := saveUserAnalytics putFails analytics store
  match saved.2 with
  | Except.error e => (saved.1, Except.error e)
  | Except.ok _ => (saved.1, Except.ok analytics)

theorem updateUserAnalytics_eq (putFails : Bool) (contentItems : List ContentItem)
    (events : List AnalyticsEvent) (dailyUsage : List DailyUsage) (today : ℤ)
    (store : Option UserAnalytics) :
    updateUserAnalytics putFails contentItems events dailyUsage today store =
      (if putFails then (store, Except.error ()) else
        (some (computeUserAnalytics contentItems events dailyUsage today),
          Except.ok (computeUserAnalytics contentItems events dailyUsage today))) := by
  cases putFails <;> simp only [updateUserAnalytics, saveUserAnalytics] <;> simp

/-- C8: snapshot recomputation is atomic.  On success the stored
snapshot is exactly the freshly computed whole object — identical no
matter what snapshot was stored before, so no partial patch of the old
record ever happens — with its fields produced by the Calculator; on a
save failure the error is propagated to the caller and the previously
stored snapshot is left untouched. -/
theorem updateUserAnalytics_atomic (contentItems : List ContentItem)
    (events : List AnalyticsEvent) (dailyUsage : List DailyUsage) (today : ℤ)
    (store store2 : Option UserAnalytics) :
    (updateUserAnalytics false contentItems events dailyUsage today store).1 =
      some (computeUserAnalytics contentItems events dailyUsage today) ∧
    (updateUserAnalytics false contentItems events dailyUsage today store).2 =
      Except.ok (computeUserAnalytics contentItems events dailyUsage today) ∧
    updateUserAnalytics false contentItems events dailyUsage today store =
      updateUserAnalytics false contentItems events dailyUsage today store2 ∧
    (updateUserAnalytics true contentItems events dailyUsage today store).1 = store ∧
    (updateUserAnalytics true contentItems events dailyUsage today store).2 =
      Except.error () ∧
    (computeUserAnalytics contentItems events dailyUsage today).productivityScore =
      calculateProductivityScore dailyUsage ∧
    (computeUserAnalytics contentItems events dailyUsage today).streakDays =
      ((calculateCurrentStreak dailyUsage today : ℕ) : ℚ) ∧
    (computeUserAnalytics contentItems events dailyUsage today).peakUsageHours =
      analyzePeakUsageHours events ∧
    (computeUserAnalytics contentItems events dailyUsage today).averageSessionDuration =
      calculateAverageSessionDuration events := by
  have h6 : (computeUserAnalytics contentItems events dailyUsage today).productivityScore =
      calculateProductivityScore dailyUsage := rfl
  have h7 : (computeUserAnalytics contentItems events dailyUsage today).streakDays =
      ((calculateCurrentStreak dailyUsage today : ℕ) : ℚ) := rfl
  have h8 : (computeUserAnalytics contentItems events dailyUsage today).peakUsageHours =
      analyzePeakUsageHours events := by
    simp only [computeUserAnalytics]
  have h9 : (computeUserAnalytics contentItems events dailyUsage
      today).averageSessionDuration = calculateAverageSessionDuration events := by
    simp only [computeUserAnalytics]
  refine ⟨?_, ?_, ?_, ?_, ?_, h6, h7, h8, h9⟩ <;>
    · rw [updateUserAnalytics_eq]
      simp [updateUserAnalytics_eq]

end VoiceNotebook
